import Mathlib

/-!
Verification of the vlr-scraper repository: a shallow embedding of the
extraction pipeline (`scrapeMatchData.js`), the Convex store mutation
(`convex/matches.js`) and the scanner/tracker orchestrator (`worker.js`
and its tracker-cache variant) together with theorems settling the
claims of the specification.

Strings coming out of the DOM are modelled as Lean `String`s; every
JavaScript string operation used by the source (split, trim, replace of
a single character, `parseInt`, `parseFloat`, substring test,
`toLowerCase`) is given an explicit executable model below.
-/

namespace Vlr

/-- Characters of a JS string. -/
def chars (s : String) : List Char := s.data

/-- JS `String.prototype.split` with a single-character separator:
consecutive separators produce empty fragments and `"".split(c) = [""]`. -/
def splitChG (sep : Char) : List Char → List (List Char)
  | [] => [[]]
  | c :: rest =>
    match splitChG sep rest with
    | [] => if c = sep then [[], []] else [[c]]
    | g :: gs => if c = sep then [] :: g :: gs else (c :: g) :: gs

/-- `splitStr sep s` is `s.split(sep)` for a one-character separator. -/
def splitStr (sep : Char) (s : String) : List String :=
  (splitChG sep s.data).map String.mk

/-- Trim on character lists: drop whitespace at both ends. -/
def trimChars (l : List Char) : List Char :=
  ((l.dropWhile Char.isWhitespace).reverse.dropWhile Char.isWhitespace).reverse

/-- JS `String.prototype.trim` (ASCII whitespace suffices for this site). -/
def jsTrim (s : String) : String := ⟨trimChars s.data⟩

/-- JS `replace(/\d/g, '')`: remove every ASCII digit. -/
def stripDigits (s : String) : String := ⟨s.data.filter (fun c => ¬ c.isDigit)⟩

/-- JS global replace of a single character by the empty string (used by
`normalizeMapName` to delete every hyphen). -/
def removeChar (c : Char) (s : String) : String := ⟨s.data.filter (fun x => x ≠ c)⟩

/-- JS `replace('%', '')` with a *string* pattern: only the first
occurrence is removed. -/
def removeFirstChar (c : Char) (s : String) : String := ⟨go s.data⟩
where
  go : List Char → List Char
    | [] => []
    | x :: xs => if x = c then xs else x :: go xs

/-- JS `replace(/\s+/g, ' ')`: collapse every whitespace run to one
space.  The boolean records whether a whitespace run is already open
(its space already emitted). -/
def collapseAux : Bool → List Char → List Char
  | _, [] => []
  | inRun, c :: rest =>
    if c.isWhitespace then
      if inRun then collapseAux true rest
      else ' ' :: collapseAux true rest
    else c :: collapseAux false rest

def collapseWsChars (l : List Char) : List Char := collapseAux false l

def collapseWs (s : String) : String := ⟨collapseWsChars s.data⟩

/-- JS `replace(/[:\t\n\r]+/g, '')`: delete every colon, tab, CR, LF. -/
def stripColonsTabsNl (s : String) : String :=
  ⟨s.data.filter (fun c => c ≠ ':' ∧ c ≠ '\t' ∧ c ≠ '\n' ∧ c ≠ '\r')⟩

/-- JS `toLowerCase` (ASCII). -/
def toLowerStr (s : String) : String := ⟨s.data.map Char.toLower⟩

/-- Does `l` begin with `p`? -/
def beginsWith : List Char → List Char → Bool
  | [], _ => true
  | _ :: _, [] => false
  | p :: ps, c :: cs => p = c && beginsWith ps cs

/-- JS `String.prototype.includes` on character lists. -/
def containsSeq (pat : List Char) : List Char → Bool
  | [] => beginsWith pat []
  | c :: cs => beginsWith pat (c :: cs) || containsSeq pat cs

/-- `s.includes(pat)`. -/
def strIncludes (pat s : String) : Bool := containsSeq pat.data s.data

/-- Numeric value of a run of ASCII digits. -/
def digitsVal (l : List Char) : Nat :=
  l.foldl (fun a c => a * 10 + (c.toNat - 48)) 0

/-- JS `parseInt(s, 10)`: skip leading whitespace, optional sign, then a
(nonempty) run of digits; everything after is ignored; `none` is `NaN`. -/
def jsParseInt (s : String) : Option Int :=
  let l := s.data.dropWhile Char.isWhitespace
  let sgn : Int := match l.head? with | some '-' => -1 | _ => 1
  let l1 := match l with
    | '-' :: r => r
    | '+' :: r => r
    | r => r
  let ds := l1.takeWhile Char.isDigit
  if ds.isEmpty then none else some (sgn * (digitsVal ds : Int))

/-- `parseInt(s, 10) || 0`: both `NaN` and `0` collapse to `0`. -/
def jsParseIntOr0 (s : String) : Int := (jsParseInt s).getD 0

/-- Value of the digits after a decimal point. -/
def fracVal (l : List Char) : ℚ :=
  l.foldr (fun c acc => ((c.toNat - 48 : ℕ) + acc) / 10) 0

/-- JS `parseFloat`: longest numeric prefix after leading whitespace —
optional sign, integer digits, optional point and fraction digits;
`none` is `NaN`.  (Exponent notation never occurs in the scraped stat
cells and is not modelled.) -/
def jsParseFloat (s : String) : Option ℚ :=
  let l := s.data.dropWhile Char.isWhitespace
  let sgn : ℚ := match l.head? with | some '-' => -1 | _ => 1
  let l1 := match l with
    | '-' :: r => r
    | '+' :: r => r
    | r => r
  let intDs := l1.takeWhile Char.isDigit
  let rest := l1.drop intDs.length
  match rest with
  | '.' :: r =>
    let fr := r.takeWhile Char.isDigit
    if intDs.isEmpty && fr.isEmpty then none
    else some (sgn * ((digitsVal intDs : ℚ) + fracVal fr))
  | _ => if intDs.isEmpty then none else some (sgn * (digitsVal intDs : ℚ))

/-- `parseStat` in `parsePlayerStatsTable`:
`parseFloat(text.replace('%', ''))`, defaulting to `0` on `NaN`. -/
def parseStatNum (s : String) : ℚ := (jsParseFloat (removeFirstChar '%' s)).getD 0

/-- Case-insensitively strip the pattern from the front, returning the rest. -/
def dropSeqCI : List Char → List Char → Option (List Char)
  | [], l => some l
  | _ :: _, [] => none
  | p :: ps, c :: cs => if p.toLower = c.toLower then dropSeqCI ps cs else none

/-- Search for the regex `/patch\s*([0-9.]+)/i` and return the capture:
at each position where `patch` matches case-insensitively, try to read
whitespace then a nonempty run of `[0-9.]`; otherwise resume scanning. -/
def patchNumSearch : List Char → Option (List Char)
  | [] => none
  | c :: rest =>
    match dropSeqCI "patch".data (c :: rest) with
    | some after =>
      let after2 := after.dropWhile Char.isWhitespace
      let num := after2.takeWhile (fun ch => ch.isDigit || ch = '.')
      if num.isEmpty then patchNumSearch rest else some num
    | none => patchNumSearch rest

/-- Strip the exact pattern from the front, returning the rest. -/
def dropSeq : List Char → List Char → Option (List Char)
  | [], l => some l
  | _ :: _, [] => none
  | p :: ps, c :: cs => if p = c then dropSeq ps cs else none

/-- Regex `/\/<seg>\/(\d+)\//` (e.g. `seg = "team"`): scan for
`/<seg>/`, then a nonempty digit run terminated by `/`; capture the
digits of the first full match. -/
def extractPathId (seg : String) : List Char → Option String
  | [] => none
  | c :: rest =>
    match dropSeq ('/' :: seg.data ++ ['/']) (c :: rest) with
    | some after =>
      let ds := after.takeWhile Char.isDigit
      if ds.isEmpty then extractPathId seg rest
      else if (after.drop ds.length).head? = some '/' then some ⟨ds⟩
      else extractPathId seg rest
    | none => extractPathId seg rest

/-- Does `l` end with `p`? -/
def endsWith (p l : List Char) : Bool := beginsWith p.reverse l.reverse

/-- Regex `/\/([a-z]+)\.webp$/` applied to an image `src`: the capture is
the run of lowercase letters between the final `/` and `.webp`. -/
def winCondFromSrc (s : String) : Option String :=
  let l := s.data
  if endsWith ".webp".data l then
    let core := l.take (l.length - 5)
    let letters := (core.reverse.takeWhile Char.isLower).reverse
    if letters.isEmpty then none
    else if (core.take (core.length - letters.length)).getLast? = some '/' then
      some ⟨letters⟩
    else none
  else none

/-- JS truthiness for an optional string attribute followed by `|| null`:
a missing attribute and the empty string both become `null`. -/
def jsOrNone : Option String → Option String
  | none => none
  | some s => if s = "" then none else some s

/-- `fixUrl` in `parseDetailedMatchData`: `null`/empty stays `null`;
protocol-relative and root-relative URLs are made absolute. -/
def fixUrl : Option String → Option String
  | none => none
  | some u =>
    if u = "" then none
    else if beginsWith "//".data u.data then some ("https:" ++ u)
    else if beginsWith "/".data u.data then some ("https://www.vlr.gg" ++ u)
    else some u

/-- `cleanText`: collapse whitespace and trim (empty stays empty). -/
def cleanText (s : String) : String :=
  if s = "" then "" else jsTrim (collapseWs s)

/-- `parseUtcTimestamp`: the site always emits `YYYY-MM-DD HH:MM:SS`;
the JS `new Date(... + ' UTC')` round-trip is modelled on exactly that
shape, producing the ISO string; anything else is a parse failure.
(Calendar rollover of out-of-range components is not modelled.) -/
def parseUtcTimestamp (s : String) : Option String :=
  match (jsTrim s).data with
  | [y1, y2, y3, y4, '-', m1, m2, '-', d1, d2, ' ',
     h1, h2, ':', n1, n2, ':', s1, s2] =>
    if [y1, y2, y3, y4, m1, m2, d1, d2, h1, h2, n1, n2, s1, s2].all Char.isDigit then
      some ⟨[y1, y2, y3, y4, '-', m1, m2, '-', d1, d2, 'T',
             h1, h2, ':', n1, n2, ':', s1, s2] ++ ".000Z".data⟩
    else none
  | _ => none

end Vlr

namespace Vlr

/-! ## Data model (`MatchDetail` as produced by `parseDetailedMatchData`) -/

/-- Overall match status vocabulary. -/
inductive MStatus | live | upcoming | completed
deriving DecidableEq, Repr

/-- Per-map status vocabulary. -/
inductive MapStatus | upcoming | live | completed | unplayed
deriving DecidableEq, Repr

structure AgentInfo where
  name : Option String
  iconUrl : Option String
deriving DecidableEq, Repr

structure StatLine where
  kills : ℚ
  deaths : ℚ
  assists : ℚ
  acs : ℚ
  adr : ℚ
  kastPercent : ℚ
  headshotPercent : ℚ
  firstKills : ℚ
  firstDeaths : ℚ
  rating : ℚ
deriving DecidableEq, Repr

structure PlayerStat where
  playerId : Option String
  playerName : String
  teamName : String
  agent : AgentInfo
  stats : StatLine
deriving DecidableEq, Repr

structure RoundResult where
  roundNumber : Option Int
  winningTeam : Option String
  winCondition : Option String
deriving DecidableEq, Repr

structure MapResult where
  name : String
  status : MapStatus
  pickedBy : Option String
  team1Score : Int
  team2Score : Int
  stats : List PlayerStat
  rounds : Option (List RoundResult)
deriving DecidableEq, Repr

structure TeamInfo where
  teamId : Option String
  name : String
  shortName : String
  score : Int
  logoUrl : String
deriving DecidableEq, Repr

structure EventInfo where
  eventId : Option String
  name : String
  series : String
deriving DecidableEq, Repr

/-- The record returned by `parseDetailedMatchData`.  `time` and `maps`
are optional because the validation gate in `getVlrMatchDetails` tests
them for `null` before persisting. -/
structure MatchData where
  vlrId : String
  status : MStatus
  time : Option String
  patch : Option String
  team1 : TeamInfo
  team2 : TeamInfo
  event : EventInfo
  maps : Option (List MapResult)
deriving DecidableEq, Repr

/-! ## Page model

The cheerio selector layer is the input boundary of the embedding: a
`DetailPage` records, for each selector expression appearing in
`parseDetailedMatchData`, the text/attribute values that the selector
would deliver on the fetched markup.  Everything downstream of the
selector reads is modelled faithfully. -/

/-- One row of a player-stat table (`tbody tr`): the texts and
attributes read by `parsePlayerStatsTable`. -/
structure RawStatRow where
  playerName : String        -- `.mod-player .text-of` text
  playerLink : Option String -- `.mod-player a` href attribute
  agentTitle : Option String -- `.mod-agent img` title attribute
  agentSrc : Option String   -- `.mod-agent img` src attribute
  killsText : String         -- `.mod-vlr-kills .side.mod-both` text
  deathsText : String
  assistsText : String
  acsText : String
  adrText : String
  kastText : String
  hsText : String
  fkText : String
  fdText : String
  ratingText : String
deriving DecidableEq, Repr

/-- A `.rnd-sq` square: win marker plus first `img` descendant (with
its optional `src` attribute) if any. -/
structure RawSquare where
  modWin : Bool
  img : Option (Option String)
deriving DecidableEq, Repr

/-- A `.vlr-rounds-row-col` column. -/
structure RawRoundCol where
  rndNumText : String        -- `.rnd-num` text
  squares : List RawSquare
deriving DecidableEq, Repr

/-- A `.vm-stats-game` container. -/
structure GameContainer where
  headerHasWin : Bool             -- `.vm-stats-game-header .score.mod-win` present
  headerTeam1ScoreText : String   -- first header `.team` `.score` text
  headerTeam2ScoreText : String   -- last header `.team` `.score` text
  tables : List (List RawStatRow) -- `.wf-table-inset` tables in order
  roundRows : List (List RawRoundCol) -- `.vlr-rounds-row`s with their columns
deriving DecidableEq, Repr

/-- An entry of the `.vm-stats-game` node list, with the attributes used
to select it. -/
structure GameEntry where
  gameId : Option String     -- data-game-id attribute
  modAll : Bool              -- has class mod-all
  c : GameContainer
deriving DecidableEq, Repr

/-- A `.vm-stats-gamesnav-item`. -/
structure NavItem where
  nameText : String          -- `div[style*="margin-bottom"]` text
  gameId : Option String     -- data-game-id
  modLive : Bool
  modAll : Bool
deriving DecidableEq, Repr

/-- The single-map fallback `.vm-stats .vm-stats-container`. -/
structure FallbackContainer where
  mapText : Option String    -- `.vm-stats-game-header .map` first text (none = absent)
  game : Option GameContainer -- first `.vm-stats-game` inside
  modLivePresent : Bool      -- container has some `.mod-live` descendant
deriving DecidableEq, Repr

/-- All selector reads of one match detail page. -/
structure DetailPage where
  vsNote : String            -- first `.match-header-vs-note` text
  eventHref : Option String  -- `.match-header-super .match-header-event` href
  eventNameText : String
  eventSeriesText : String
  patchDivTexts : List String -- `.match-header-date div` texts
  utcTs : Option String      -- data-utc-ts of first `.moment-tz-convert`
  headerNote : String        -- `.match-header-note` text
  team1NameText : String     -- `.match-header-link.mod-1 .wf-title-med` text
  team2NameText : String
  scoreSpanTexts : List String -- `.match-header-vs-score` span texts
  teamShortTexts : List String -- `.vlr-rounds-row .team` own-texts
  team1Href : Option String
  team2Href : Option String
  team1ImgSrc : Option String
  team2ImgSrc : Option String
  navItems : List NavItem
  games : List GameEntry
  statsContainer : Option FallbackContainer
deriving DecidableEq, Repr

/-! ## Assoc-list models of JS `Map` / plain objects -/

/-- JS `Map.set` / property assignment: overwrite in place, else append. -/
def objSet (k : String) (v : α) : List (String × α) → List (String × α)
  | [] => [(k, v)]
  | (k', v') :: rest =>
    if k' = k then (k, v) :: rest else (k', v') :: objSet k v rest

/-- JS `Map.get` / property read (own properties only). -/
def objGet (k : String) : List (String × α) → Option α
  | [] => none
  | (k', v') :: rest => if k' = k then some v' else objGet k rest

/-- JS `Map.has`. -/
def hasKey (k : String) (l : List (String × α)) : Bool := (objGet k l).isSome

/-! ## Extractor (`scrapeMatchData.js`) -/

/-- `normalizeMapName`: delete every hyphen, then trim. -/
def normalizeMapName (name : String) : String :=
  if name = "" then "" else jsTrim (removeChar '-' name)

/-- The trimmed semicolon-delimited clauses of a pick/ban note. -/
def pickClauses (noteText : String) : List String :=
  (splitStr ';' noteText).map jsTrim

/-- `part.split(' ')`: the tokens of one clause (single-space split, so
consecutive spaces yield empty tokens). -/
def pickWords (part : String) : List String := splitStr ' ' part

/-- Processing of one clause in `parsePicks`. -/
def pickStep (picks : List (String × String)) (part : String) :
    List (String × String) :=
  if strIncludes "pick" (toLowerStr part) then
    if 3 ≤ (pickWords part).length then
      objSet ((pickWords part).getD 2 "") ((pickWords part).getD 0 "") picks
    else picks
  else picks

/-- `parsePicks`: every clause whose lowercase form includes `pick` and
which has at least three tokens stores `third token ↦ first token`. -/
def parsePicks (noteText : String) : List (String × String) :=
  if noteText = "" then []
  else (pickClauses noteText).foldl pickStep []

/-- One step of the key-normalizing `reduce` over `Object.keys`. -/
def rekeyStep (acc : List (String × String)) (kv : String × String) :
    List (String × String) :=
  objSet (normalizeMapName kv.1) kv.2 acc

/-- The pick table actually used for lookups: `parsePicks` keys pushed
through `normalizeMapName` (the `reduce` over `Object.keys`). -/
def mapPicksOf (noteText : String) : List (String × String) :=
  (parsePicks noteText).foldl rekeyStep []

/-- `mapPicks[mapName] || null`. -/
def jsPickLookup (t : List (String × String)) (k : String) : Option String :=
  jsOrNone (objGet k t)

/-- `parsePlayerStatsTable` on the rows of one table. -/
def parsePlayerStatsTable (rows : List RawStatRow) (teamName : String)
    (includeAgent : Bool) : List PlayerStat :=
  rows.filterMap fun row =>
    let pn := jsTrim row.playerName
    if pn = "" then none
    else
      let playerId := row.playerLink.bind (fun l => extractPathId "player" l.data)
      let agentName := if includeAgent then jsOrNone row.agentTitle else none
      let agentIcon :=
        if includeAgent then
          (jsOrNone row.agentSrc).map fun u =>
            if beginsWith "/".data u.data then "https://www.vlr.gg" ++ u else u
        else none
      some
        { playerId := playerId
          playerName := pn
          teamName := teamName
          agent := ⟨agentName, agentIcon⟩
          stats :=
            { kills := parseStatNum row.killsText
              deaths := parseStatNum row.deathsText
              assists := parseStatNum row.assistsText
              acs := parseStatNum row.acsText
              adr := parseStatNum row.adrText
              kastPercent := parseStatNum row.kastText
              headshotPercent := parseStatNum row.hsText
              firstKills := parseStatNum row.fkText
              firstDeaths := parseStatNum row.fdText
              rating := parseStatNum row.ratingText } }

/-- `parseRoundsData` over the selected round columns. -/
def parseRoundsData (cols : List RawRoundCol) (team1Name team2Name : String) :
    List RoundResult :=
  cols.filterMap fun col =>
    let t := jsTrim col.rndNumText
    if t = "" then none
    else
      let winIdx := col.squares.findIdx? (·.modWin)
      let winningTeam := winIdx.map fun i => if i = 0 then team1Name else team2Name
      let winCondition :=
        match winIdx with
        | none => none
        | some _ =>
          match ((col.squares.filter (·.modWin)).filterMap (·.img)).head? with
          | some srcAttr =>
            match jsOrNone srcAttr with
            | some src => winCondFromSrc src
            | none => none
          | none => none
      some { roundNumber := jsParseInt t
             winningTeam := winningTeam
             winCondition := winCondition }

/-- Overall status from the header note. -/
def overallStatusOf (page : DetailPage) : MStatus :=
  let st := toLowerStr page.vsNote
  if strIncludes "live" st then .live
  else if strIncludes "final" st || strIncludes "forfeited" st then .completed
  else .upcoming

/-- Patch extraction: the first nonempty `div` text containing `patch`
decides the value (regex capture, else the trimmed text). -/
def patchOfDivs : List String → Option String
  | [] => none
  | t :: rest =>
    if t = "" then patchOfDivs rest
    else if strIncludes "patch" (toLowerStr t) then
      some (match patchNumSearch t.data with
            | some num => jsTrim ⟨num⟩
            | none => jsTrim t)
    else patchOfDivs rest

/-- The `.vm-stats-game[data-game-id="… "]` selection for a nav item's
data attribute (an absent attribute interpolates as the literal string
`undefined`). -/
def gamesById (page : DetailPage) (gid : String) : List GameContainer :=
  (page.games.filter (fun g => g.gameId = some gid)).map (·.c)

def navSelection (page : DetailPage) (gameId : Option String) : List GameContainer :=
  match gameId with
  | some gid => gamesById page gid
  | none => gamesById page "undefined"

/-- `.wf-table-inset` across a selection, `eq i`. -/
def tableAt (sel : List GameContainer) (i : Nat) : List RawStatRow :=
  ((sel.map (·.tables)).flatten).getD i []

/-- `.vlr-rounds-row-col:not(:first-child)` across a selection: every
rounds row loses its leading team-names column. -/
def selRoundCols (sel : List GameContainer) : List RawRoundCol :=
  (sel.map (fun c => (c.roundRows.map (List.drop 1)).flatten)).flatten

/-- First header `.team` `.score` text of a selection (empty text on an
empty selection). -/
def selTeam1ScoreText (sel : List GameContainer) : String :=
  (sel.head?.map (·.headerTeam1ScoreText)).getD ""

def selTeam2ScoreText (sel : List GameContainer) : String :=
  (sel.getLast?.map (·.headerTeam2ScoreText)).getD ""

def selHasWin (sel : List GameContainer) : Bool := sel.any (·.headerHasWin)

end Vlr

namespace Vlr

/-- The map entry produced for one (non-`mod-all`) gamesnav item. -/
def navMapOf (page : DetailPage) (mapPicks : List (String × String))
    (team1Name team2Name : String) (el : NavItem) : MapResult :=
  let mapNameRaw := jsTrim (stripDigits el.nameText)
  let mapName := normalizeMapName mapNameRaw
  let sel := navSelection page el.gameId
  let status : MapStatus :=
    if ¬ sel.isEmpty then
      if selHasWin sel then .completed
      else if el.modLive then .live
      else .upcoming
    else .upcoming
  { name := mapName
    status := status
    pickedBy := jsPickLookup mapPicks mapName
    team1Score := jsParseIntOr0 (jsTrim (selTeam1ScoreText sel))
    team2Score := jsParseIntOr0 (jsTrim (selTeam2ScoreText sel))
    stats :=
      (if ¬ sel.isEmpty then parsePlayerStatsTable (tableAt sel 0) team1Name true else []) ++
      (if ¬ sel.isEmpty then parsePlayerStatsTable (tableAt sel 1) team2Name true else [])
    rounds := some (if ¬ sel.isEmpty then parseRoundsData (selRoundCols sel) team1Name team2Name else []) }

/-- The `.vm-stats-game.mod-all` selection. -/
def modAllGames (page : DetailPage) : List GameContainer :=
  (page.games.filter (·.modAll)).map (·.c)

/-- The container selection for the aggregate "All Maps" tab: the first
`mod-all` nav item's `data-game-id` when truthy (cheerio turns the
attribute string `"0"` into the number `0`, which is falsy), otherwise
the `.vm-stats-game.mod-all` selector. -/
def allMapsSel (page : DetailPage) : List GameContainer :=
  match (page.navItems.filter (·.modAll)).head? with
  | some nav =>
    match nav.gameId with
    | some gid => if gid ≠ "" ∧ gid ≠ "0" then gamesById page gid else modAllGames page
    | none => modAllGames page
  | none => modAllGames page

/-- The synthetic aggregate entry pushed when the match is completed and
an all-maps container exists. -/
def allMapsEntry (sel : List GameContainer) (team1Name team2Name : String) : MapResult :=
  { name := "All Maps"
    status := .completed
    pickedBy := none
    team1Score := 0
    team2Score := 0
    stats := parsePlayerStatsTable (tableAt sel 0) team1Name false ++
             parsePlayerStatsTable (tableAt sel 1) team2Name false
    rounds := none }

/-- The single-map fallback (`.vm-stats .vm-stats-container`), used only
when no map was produced otherwise. -/
def fallbackMaps (page : DetailPage) (mapPicks : List (String × String))
    (team1Name team2Name : String) : List MapResult :=
  match page.statsContainer with
  | none => []
  | some fc =>
    let mapName :=
      normalizeMapName
        (jsTrim (stripColonsTabsNl (collapseWs (stripDigits (fc.mapText.getD "Unknown Map")))))
    let sel : List GameContainer := match fc.game with | some g => [g] | none => []
    let status : MapStatus :=
      if ¬ sel.isEmpty then
        if selHasWin sel then .completed
        else if fc.modLivePresent then .live
        else .upcoming
      else .upcoming
    [{ name := mapName
       status := status
       pickedBy := jsPickLookup mapPicks mapName
       team1Score := jsParseIntOr0 (jsTrim (selTeam1ScoreText sel))
       team2Score := jsParseIntOr0 (jsTrim (selTeam2ScoreText sel))
       stats :=
         (if ¬ sel.isEmpty then parsePlayerStatsTable (tableAt sel 0) team1Name true else []) ++
         (if ¬ sel.isEmpty then parsePlayerStatsTable (tableAt sel 1) team2Name true else [])
       rounds := some (if ¬ sel.isEmpty then parseRoundsData (selRoundCols sel) team1Name team2Name else []) }]

/-- The maps list as resolved *before* the completed/unplayed
post-processing: optional aggregate entry, then one entry per
non-`mod-all` nav item; if that leaves nothing, the single-map
fallback. -/
def resolvedMaps (page : DetailPage) (mapPicks : List (String × String))
    (team1Name team2Name : String) : List MapResult :=
  let am :=
    if overallStatusOf page = .completed ∧ ¬ (allMapsSel page).isEmpty then
      [allMapsEntry (allMapsSel page) team1Name team2Name]
    else []
  let nav := (page.navItems.filter (fun el => ¬ el.modAll)).map
    (navMapOf page mapPicks team1Name team2Name)
  let base := am ++ nav
  if base.isEmpty then fallbackMaps page mapPicks team1Name team2Name else base

/-- The completed/unplayed coercion applied to one map. -/
def coerceUnplayed (m : MapResult) : MapResult :=
  if m.status = .upcoming then { m with status := .unplayed } else m

/-- Team short name: own-text of a `.vlr-rounds-row .team` element,
falling back to the full name when empty/absent. -/
def shortNameOf (ownText : String) (fullName : String) : String :=
  let t := jsTrim ownText
  if t = "" then fullName else t

/-- `parseDetailedMatchData`. -/
def parseDetailedMatchData (page : DetailPage) (vlrId : String) :
    Except String MatchData :=
  let overallStatus := overallStatusOf page
  let eventId := page.eventHref.bind (fun l => extractPathId "event" l.data)
  let eventName := cleanText page.eventNameText
  let eventSeries := cleanText page.eventSeriesText
  let patch := patchOfDivs page.patchDivTexts
  match jsOrNone page.utcTs with
  | none => .error "Mandatory timestamp not found"
  | some rawTimestamp =>
    match parseUtcTimestamp rawTimestamp with
    | none => .error "Invalid timestamp format"
    | some timestamp =>
      let mapPicks := mapPicksOf page.headerNote
      let team1Name := jsTrim page.team1NameText
      let team2Name := jsTrim page.team2NameText
      let team1OverallScore := jsParseIntOr0 (jsTrim (page.scoreSpanTexts.getD 0 ""))
      let team2OverallScore := jsParseIntOr0 (jsTrim (page.scoreSpanTexts.getD 1 ""))
      let team1ShortName := shortNameOf (page.teamShortTexts.getD 0 "") team1Name
      let team2ShortName := shortNameOf (page.teamShortTexts.getD 1 "") team2Name
      let team1Id := page.team1Href.bind (fun l => extractPathId "team" l.data)
      let team2Id := page.team2Href.bind (fun l => extractPathId "team" l.data)
      let team1LogoUrl := (fixUrl page.team1ImgSrc).getD "https://www.vlr.gg/img/vlr/tmp/vlr.png"
      let team2LogoUrl := (fixUrl page.team2ImgSrc).getD "https://www.vlr.gg/img/vlr/tmp/vlr.png"
      let maps0 := resolvedMaps page mapPicks team1Name team2Name
      let maps := if overallStatus = .completed then maps0.map coerceUnplayed else maps0
      .ok
        { vlrId := vlrId
          status := overallStatus
          time := some timestamp
          patch := patch
          team1 :=
            { teamId := team1Id, name := team1Name, shortName := team1ShortName
              score := team1OverallScore, logoUrl := team1LogoUrl }
          team2 :=
            { teamId := team2Id, name := team2Name, shortName := team2ShortName
              score := team2OverallScore, logoUrl := team2LogoUrl }
          event := { eventId := eventId, name := eventName, series := eventSeries }
          maps := some maps }

/-- The validation gate of `getVlrMatchDetails`: discard on a falsy
timestamp, a null `maps` field, or two `TBD` team names. -/
def validateGate (matchData : MatchData) : Option MatchData :=
  if matchData.time.getD "" = "" then none
  else if matchData.maps = none then none
  else if matchData.team1.name = "TBD" ∧ matchData.team2.name = "TBD" then none
  else some matchData

/-- `getVlrMatchDetails`: fetch, validate the id taken from the URL, run
the parser, then apply the validation gate; every failure path returns
`none` (the JS `catch` turns any throw into `null`). -/
def getVlrMatchDetails (urlId : String) (fetched : Except Unit DetailPage) :
    Option MatchData :=
  match fetched with
  | .error _ => none
  | .ok page =>
    if urlId = "" ∨ (jsParseInt urlId).isNone then none
    else
      match parseDetailedMatchData page urlId with
      | .error _ => none
      | .ok matchData => validateGate matchData

end Vlr

namespace Vlr

/-! ## Convex store mutation (`convex/matches.js`, `upsertMatch`) -/

/-- `sanitize`: lowercase then remove all whitespace. -/
def sanitize (s : String) : String :=
  ⟨(toLowerStr s).data.filter (fun c => ¬ c.isWhitespace)⟩

/-- `new Set(arr)` spread back to an array: deduplicate keeping first
occurrences. -/
def dedupFirst (l : List String) : List String :=
  l.foldl (fun acc s => if acc.contains s then acc else acc ++ [s]) []

/-- The combined search string attached to every upserted match. -/
def allSearchTerms (m : MatchData) : String :=
  let generalTerms := [m.team1.name, m.team1.shortName, m.team2.name,
    m.team2.shortName, m.event.name, m.event.series]
  let t1n := sanitize m.team1.name
  let t1s := sanitize m.team1.shortName
  let t2n := sanitize m.team2.name
  let t2s := sanitize m.team2.shortName
  let matchupTerms := [t1n ++ "vs" ++ t2n, t1n ++ "vs" ++ t2s,
    t1s ++ "vs" ++ t2n, t1s ++ "vs" ++ t2s,
    t2n ++ "vs" ++ t1n, t2n ++ "vs" ++ t1s,
    t2s ++ "vs" ++ t1n, t2s ++ "vs" ++ t1s]
  String.intercalate " " (generalTerms.map toLowerStr ++ dedupFirst matchupTerms)

/-- A stored row: the match plus its derived search terms. -/
structure StoredMatch where
  data : MatchData
  searchTerms : String
deriving DecidableEq, Repr

def withSearch (m : MatchData) : StoredMatch := ⟨m, allSearchTerms m⟩

structure UpsertResult where
  success : Bool
  vlrId : String
  status : String
deriving DecidableEq, Repr

/-- The `matches` table, keyed by `vlrId` (the `by_vlr_id` index with
`.unique()` read-modify-write). -/
abbrev MatchStore := List (String × StoredMatch)

/-- `upsertMatch`: insert when the id is absent, otherwise patch the
existing row; the reported status is `inserted` or `updated`. -/
def upsertMatch (m : MatchData) (db : MatchStore) : UpsertResult × MatchStore :=
  match objGet m.vlrId db with
  | none => (⟨true, m.vlrId, "inserted"⟩, db ++ [(m.vlrId, withSearch m)])
  | some _ =>
    (⟨true, m.vlrId, "updated"⟩,
     db.map (fun e => if e.1 = m.vlrId then (e.1, withSearch m) else e))

/-! ## Orchestrator: tracker (`runTracker`, tracker-cache variant) -/

/-- Outcome of a store mutation as observed by the caller: a result with
its `success` flag, or a thrown error (network/store failure). -/
inductive WriteOutcome
  | ok (success : Bool)
  | threw
deriving DecidableEq, Repr

/-- One `runTracker` tick of the tracker-cache worker variant, given the
extraction result (`none` = no data) and the outcome the store write
would have.  Returns the new private snapshot and whether a write was
issued.  The snapshot advances only on `result.success`. -/
def runTrackerStep (snapshot : Option MatchData) (details : Option MatchData)
    (write : WriteOutcome) : Option MatchData × Bool :=
  match details with
  | none => (snapshot, false)
  | some d =>
    let skip : Bool := match snapshot with
      | some cached => decide (cached = d)
      | none => false
    if skip then (snapshot, false)
    else
      match write with
      | .ok true => (some d, true)
      | _ => (snapshot, true)

/-! ## Orchestrator: scanner -/

/-- Active-tracker registry: vlrId ↦ interval handle. -/
abbrev TrackerReg := List (String × Nat)

/-- The tracker-starting loop of `runScanner`: for every live match id,
start a tracker if none is registered (interval handles are allocated
from a counter). -/
def startTrackers : List String → TrackerReg → Nat → TrackerReg × Nat
  | [], reg, n => (reg, n)
  | id :: rest, reg, n =>
    if hasKey id reg then startTrackers rest reg n
    else startTrackers rest (reg ++ [(id, n)]) (n + 1)

/-- `ReconcileTrackers`: start missing trackers for the live set, then
stop (and deregister) every tracker whose id is not live. -/
def reconcileTrackers (liveIds : List String) (reg : TrackerReg) (n : Nat) :
    TrackerReg × Nat :=
  let started := startTrackers liveIds reg n
  (started.1.filter (fun e => liveIds.contains e.1), started.2)

/-- JS `<` on strings: lexicographic comparison of code units. -/
def charListLt : List Char → List Char → Bool
  | [], [] => false
  | [], _ :: _ => true
  | _ :: _, [] => false
  | a :: as, b :: bs =>
    if a.toNat < b.toNat then true
    else if a.toNat = b.toNat then charListLt as bs
    else false

def strLt (a b : String) : Bool := charListLt a.data b.data

/-- Stable insertion into a list sorted by `vlrId`: a new record goes
after every record with a smaller-or-equal id. -/
def insertByVlrId (m : MatchData) : List MatchData → List MatchData
  | [] => [m]
  | x :: xs => if strLt m.vlrId x.vlrId then m :: x :: xs else x :: insertByVlrId m xs

/-- `_.sortBy(detailedMatches, ['vlrId'])`: a stable ascending sort by
id (insertion sort — extensionally equal to lodash's stable sort). -/
def sortByVlrId (l : List MatchData) : List MatchData :=
  l.foldl (fun acc m => insertByVlrId m acc) []

/-- The scanner ensures a `vlrId` before sorting, defaulting to the id
segment of the match URL. -/
def fixVlrId (urlId : String) (m : MatchData) : MatchData :=
  if m.vlrId = "" then { m with vlrId := urlId } else m

/-- `getChangedMatches` of the tracker-cache variant: first run keeps
everything; otherwise keep the records that are new or differ from the
cached record with the same id (`new Map` from pairs: later pairs win). -/
def getChangedMatches (currentMatches : List MatchData)
    (lastScraped : Option (List MatchData)) : List MatchData :=
  match lastScraped with
  | none => currentMatches
  | some old =>
    let oldMatchesMap := old.foldl (fun m x => objSet x.vlrId x m) []
    currentMatches.filter fun c =>
      match objGet c.vlrId oldMatchesMap with
      | none => true
      | some o => decide (¬ o = c)

/-- Mutable scanner state of the tracker-cache worker variant. -/
structure ScannerState where
  lastScraped : Option (List MatchData)
  trackers : TrackerReg
  nextInterval : Nat
deriving DecidableEq, Repr

/-- Result of one scanner cycle (tracker-cache variant): the records the
scanner hands to the batch upsert, and the state afterwards. -/
structure CycleResult where
  writes : List MatchData
  state : ScannerState
deriving DecidableEq, Repr

/-- The ids the scanner records as live during the fetch loop (taken
from the URL id segment). -/
def liveIdsOf (cands : List (String × MatchData)) : List String :=
  (cands.filter (fun p => (fixVlrId p.1 p.2).status = .live)).map (·.1)

/-- One cycle of the tracker-cache worker's `runScanner`, downstream of
fetching: sort the successfully extracted candidates, diff against the
cache, reconcile trackers against the live set, batch-upsert the changed
records not owned by a tracker, and advance the cache only if anything
changed (the batch outcome does not influence the cache). -/
def scannerCycle (cands : List (String × MatchData)) (st : ScannerState) :
    CycleResult :=
  let detailedMatches := cands.map (fun p => fixVlrId p.1 p.2)
  let sorted := sortByVlrId detailedMatches
  let allChangedMatches := getChangedMatches sorted st.lastScraped
  let reconciled := reconcileTrackers (liveIdsOf cands) st.trackers st.nextInterval
  let changedMatchesForScanner :=
    allChangedMatches.filter (fun m => !(hasKey m.vlrId reconciled.1))
  let cache2 := if allChangedMatches.isEmpty then st.lastScraped else some sorted
  ⟨changedMatchesForScanner, ⟨cache2, reconciled.1, reconciled.2⟩⟩

/-! ## Orchestrator: scanner of `worker.js` (whole-array cache variant) -/

/-- `hasMatchesDataChanged` of `worker.js`: whole-array deep equality
against the cache; a missing cache counts as changed. -/
def hasMatchesDataChanged (currentParsedMatches : List MatchData)
    (lastScraped : Option (List MatchData)) : Bool :=
  match lastScraped with
  | none => true
  | some old => decide (¬ currentParsedMatches = old)

/-- Result of the diff/upsert phase of `worker.js`'s `runScanner`. -/
structure UpsertPhaseV1 where
  writesAttempted : List MatchData
  processedCount : Nat
  cache : Option (List MatchData)
deriving DecidableEq, Repr

/-- Steps 3–5 of `worker.js`'s `runScanner`: when the sorted batch
differs from the cache, upsert *every* record (each failure is caught
and only skips the count), then replace the cache with the sorted batch
unconditionally; otherwise skip all database operations. -/
def scannerUpsertPhaseV1 (cands : List (String × MatchData))
    (lastScraped : Option (List MatchData)) (outcome : MatchData → WriteOutcome) :
    UpsertPhaseV1 :=
  let sorted := sortByVlrId (cands.map (fun p => fixVlrId p.1 p.2))
  if hasMatchesDataChanged sorted lastScraped then
    ⟨sorted,
     (sorted.filter (fun m => outcome m = .ok true)).length,
     some sorted⟩
  else
    ⟨[], 0, lastScraped⟩

end Vlr

namespace Vlr

/-! ## Predicates used by the theorems -/

/-- How the Change Detector classifies one record of the current batch
against the scanner cache: new (no cache / unknown id) or different from
the cached record with the same id. -/
def isChangedAgainst (lastScraped : Option (List MatchData)) (m : MatchData) : Prop :=
  match lastScraped with
  | none => True
  | some old => objGet m.vlrId (old.foldl (fun mp x => objSet x.vlrId x mp) []) ≠ some m

instance : DecidablePred (isChangedAgainst last) := by
  intro m; unfold isChangedAgainst; cases last <;> infer_instance

/-- Keys of an assoc list are pairwise distinct. -/
def nodupKeys (l : List (String × α)) : Prop := (l.map Prod.fst).Nodup

instance : Decidable (nodupKeys (l : List (String × α))) := by
  unfold nodupKeys; infer_instance

/-- Number of entries carrying a given key. -/
def countKey (k : String) (l : List (String × α)) : Nat :=
  (l.filter (fun e => e.1 = k)).length

/-! ## Definitions following the specification wording

These are *not* translations of the source; they spell out what the
specification's sentences say, so that the source-derived definitions
can be compared against them. -/

/-- Modelled from the spec: map-name normalization as worded — "digits
and hyphens stripped, whitespace collapsed" (with surrounding whitespace
trimmed). -/
def specMapNameNorm (s : String) : String :=
  jsTrim (collapseWs (removeChar '-' (stripDigits s)))

/-- Whitespace tokenization (maximal non-whitespace runs). -/
def wsTokens (s : String) : List String :=
  ((s.data.splitOnP Char.isWhitespace).filter (· ≠ [])).map String.mk

/-- Modelled from the spec: the pick table as worded — for each clause
containing "pick", its third *whitespace* token (normalized) maps to its
first whitespace token. -/
def specPickTable (note : String) : List (String × String) :=
  (pickClauses note).foldl
    (fun picks part =>
      if strIncludes "pick" (toLowerStr part) then
        match wsTokens part with
        | t1 :: _ :: t3 :: _ => objSet (normalizeMapName t3) t1 picks
        | _ => picks
      else picks)
    []

/-! ## Concrete inputs used by witnesses and counterexamples -/

/-- A small extracted record (blank `vlrId`, to exercise the URL-id
defaulting). -/
def mdW : MatchData :=
  { vlrId := "", status := .completed, time := some "t", patch := none,
    team1 := ⟨none, "A", "A", 0, "x"⟩, team2 := ⟨none, "B", "B", 0, "x"⟩,
    event := ⟨none, "E", "S"⟩, maps := some [] }

/-- The same record under a live status. -/
def mdLive : MatchData := { mdW with status := .live }

/-- A page whose teams are both the TBD placeholder. -/
def pageTBD : DetailPage :=
  { vsNote := "", eventHref := none, eventNameText := "", eventSeriesText := "",
    patchDivTexts := [], utcTs := some "2025-01-02 03:04:05", headerNote := "",
    team1NameText := "TBD", team2NameText := "TBD", scoreSpanTexts := [],
    teamShortTexts := [], team1Href := none, team2Href := none,
    team1ImgSrc := none, team2ImgSrc := none, navItems := [], games := [],
    statsContainer := none }

/-- A page with one navigation-tab map whose raw name holds two internal
spaces. -/
def pageC7 : DetailPage :=
  { pageTBD with
    team1NameText := "A", team2NameText := "B",
    navItems := [{ nameText := "Ice  box", gameId := none, modLive := false, modAll := false }] }

/-- A completed page with one navigation-tab map that never resolved
past `upcoming` (its container is missing). -/
def pageC6 : DetailPage :=
  { pageC7 with vsNote := "Final" }

/-- One stat row whose agent cell is populated. -/
def rowC10 : RawStatRow :=
  { playerName := "p1", playerLink := none, agentTitle := some "Jett",
    agentSrc := some "/a.png", killsText := "", deathsText := "", assistsText := "",
    acsText := "", adrText := "", kastText := "", hsText := "", fkText := "",
    fdText := "", ratingText := "" }

/-- An aggregate all-maps stats container. -/
def gcC10 : GameContainer :=
  { headerHasWin := false, headerTeam1ScoreText := "", headerTeam2ScoreText := "",
    tables := [[rowC10]], roundRows := [] }

/-- A completed page carrying an aggregate all-maps container. -/
def pageC10 : DetailPage :=
  { pageTBD with
    vsNote := "Final", team1NameText := "A", team2NameText := "B",
    games := [⟨none, true, gcC10⟩] }

/-- The record `parseDetailedMatchData` extracts from `pageTBD`. -/
def mdTBD : MatchData :=
  { vlrId := "77", status := .upcoming, time := some "2025-01-02T03:04:05.000Z",
    patch := none,
    team1 := ⟨none, "TBD", "TBD", 0, "https://www.vlr.gg/img/vlr/tmp/vlr.png"⟩,
    team2 := ⟨none, "TBD", "TBD", 0, "https://www.vlr.gg/img/vlr/tmp/vlr.png"⟩,
    event := ⟨none, "", ""⟩, maps := some [] }

/-- The record `parseDetailedMatchData` extracts from `pageC7`. -/
def mdC7 : MatchData :=
  { vlrId := "55", status := .upcoming, time := some "2025-01-02T03:04:05.000Z",
    patch := none,
    team1 := ⟨none, "A", "A", 0, "https://www.vlr.gg/img/vlr/tmp/vlr.png"⟩,
    team2 := ⟨none, "B", "B", 0, "https://www.vlr.gg/img/vlr/tmp/vlr.png"⟩,
    event := ⟨none, "", ""⟩,
    maps := some [⟨"Ice  box", .upcoming, none, 0, 0, [], some []⟩] }

/-- The record `parseDetailedMatchData` extracts from `pageC6`. -/
def mdC6 : MatchData :=
  { mdC7 with
    vlrId := "66", status := MStatus.completed,
    maps := some [⟨"Ice  box", .unplayed, none, 0, 0, [], some []⟩] }

/-- The all-maps stat row of `pageC10` after extraction. -/
def statC10 : PlayerStat :=
  ⟨none, "p1", "A", ⟨none, none⟩, ⟨0, 0, 0, 0, 0, 0, 0, 0, 0, 0⟩⟩

/-- The record `parseDetailedMatchData` extracts from `pageC10`. -/
def mdC10 : MatchData :=
  { mdC7 with
    vlrId := "88", status := MStatus.completed,
    maps := some [⟨"All Maps", .completed, none, 0, 0, [statC10], none⟩] }

instance [DecidableEq ε] [DecidableEq α] : DecidableEq (Except ε α) := fun a b =>
  match a, b with
  | .error x, .error y =>
    if h : x = y then isTrue (h ▸ rfl) else isFalse (fun hh => h (Except.error.inj hh))
  | .error _, .ok _ => isFalse (fun hh => Except.noConfusion hh)
  | .ok _, .error _ => isFalse (fun hh => Except.noConfusion hh)
  | .ok x, .ok y =>
    if h : x = y then isTrue (h ▸ rfl) else isFalse (fun hh => h (Except.ok.inj hh))

end Vlr


namespace Vlr

/-! ## Supporting lemmas: assoc lists and the tracker registry -/

theorem objGet_append (k : String) (l1 l2 : List (String × α)) :
    objGet k (l1 ++ l2) = (objGet k l1).or (objGet k l2) := by
  induction l1 with
  | nil => simp [objGet]
  | cons e rest ih =>
    by_cases h : e.1 = k <;> simp [objGet, h, ih]

theorem hasKey_append (k : String) (l1 l2 : List (String × α)) :
    hasKey k (l1 ++ l2) = (hasKey k l1 || hasKey k l2) := by
  simp only [hasKey, objGet_append]
  cases objGet k l1 <;> simp [Option.or]

theorem hasKey_singleton (k k' : String) (v : α) :
    hasKey k [(k', v)] = decide (k' = k) := by
  by_cases h : k' = k <;> simp [hasKey, objGet, h]

theorem hasKey_iff_mem (k : String) (l : List (String × α)) :
    hasKey k l = true ↔ k ∈ l.map Prod.fst := by
  induction l with
  | nil => simp [hasKey, objGet]
  | cons e rest ih =>
    simp only [hasKey, objGet, List.map_cons, List.mem_cons]
    by_cases h : e.1 = k
    · simp [h]
    · rw [if_neg h]
      show hasKey k rest = true ↔ _
      rw [ih]
      constructor
      · exact Or.inr
      · rintro (h' | h')
        · exact absurd h'.symm h
        · exact h'

theorem startTrackers_hasKey (liveIds : List String) (reg : TrackerReg) (n : Nat)
    (k0 : String) :
    hasKey k0 (startTrackers liveIds reg n).1
      = (hasKey k0 reg || liveIds.contains k0) := by
  induction liveIds generalizing reg n with
  | nil => simp [startTrackers]
  | cons x rest ih =>
    simp only [startTrackers]
    by_cases hx : hasKey x reg
    · rw [if_pos hx, ih]
      by_cases hk : k0 = x
      · subst hk; simp [hx]
      · simp [List.contains_cons, hk]
    · rw [if_neg hx, ih, hasKey_append, hasKey_singleton]
      by_cases hk : k0 = x
      · subst hk
        simp [List.contains_cons]
      · have h1 : (decide (x = k0)) = false := decide_eq_false fun h => hk h.symm
        have h2 : (decide (k0 = x)) = false := decide_eq_false hk
        simp [List.contains_cons, h1, h2]

theorem startTrackers_nodup (liveIds : List String) (reg : TrackerReg) (n : Nat)
    (h : nodupKeys reg) : nodupKeys (startTrackers liveIds reg n).1 := by
  induction liveIds generalizing reg n with
  | nil => exact h
  | cons x rest ih =>
    simp only [startTrackers]
    by_cases hx : hasKey x reg
    · rw [if_pos hx]; exact ih _ _ h
    · rw [if_neg hx]
      refine ih _ _ ?_
      have hxm : x ∉ reg.map Prod.fst := by
        intro hm
        exact hx ((hasKey_iff_mem x reg).mpr hm)
      simpa [nodupKeys, List.nodup_append] using And.intro h hxm

theorem countKey_cons (k : String) (e : String × α) (l : List (String × α)) :
    countKey k (e :: l) = (if e.1 = k then 1 else 0) + countKey k l := by
  by_cases h : e.1 = k <;> simp [countKey, List.filter_cons, h, Nat.add_comm]

theorem countKey_filter_key (f : String → Bool) (l : List (String × α)) (k0 : String) :
    countKey k0 (l.filter (fun e => f e.1)) = if f k0 then countKey k0 l else 0 := by
  induction l with
  | nil => simp [countKey]
  | cons e rest ih =>
    rw [List.filter_cons]
    by_cases h2 : f e.1
    · rw [if_pos h2, countKey_cons, countKey_cons, ih]
      by_cases h1 : e.1 = k0
      · rw [h1] at h2; simp [h1, h2]
      · simp [h1]
    · rw [if_neg h2, ih, countKey_cons]
      by_cases h1 : e.1 = k0
      · rw [h1] at h2
        have : f k0 = false := by simpa using h2
        simp [h1, this]
      · simp [h1]

theorem hasKey_filter_key (f : String → Bool) (l : List (String × α)) (k0 : String) :
    hasKey k0 (l.filter (fun e => f e.1)) = (hasKey k0 l && f k0) := by
  induction l with
  | nil => simp [hasKey, objGet]
  | cons e rest ih =>
    rw [List.filter_cons]
    by_cases h2 : f e.1
    · rw [if_pos h2]
      by_cases h1 : e.1 = k0
      · rw [h1] at h2; simp [hasKey, objGet, h1, h2]
      · simp only [hasKey, objGet, if_neg h1]
        exact ih
    · rw [if_neg h2, ih]
      by_cases h1 : e.1 = k0
      · rw [h1] at h2
        have hf : f k0 = false := by simpa using h2
        simp [hasKey, objGet, h1, hf]
      · simp [hasKey, objGet, h1]

theorem countKey_of_nodup (l : List (String × α)) (h : nodupKeys l) (k0 : String) :
    countKey k0 l = if hasKey k0 l then 1 else 0 := by
  induction l with
  | nil => simp [countKey, hasKey, objGet]
  | cons e rest ih =>
    have hne := (List.nodup_cons.mp h).1
    have hrest : nodupKeys rest := (List.nodup_cons.mp h).2
    rw [countKey_cons, ih hrest]
    by_cases h1 : e.1 = k0
    · have hk : hasKey e.1 rest = false := by
        cases hk : hasKey e.1 rest
        · rfl
        · exact absurd ((hasKey_iff_mem _ _).mp hk) hne
      have hnone : objGet e.1 rest = none := by
        cases ho : objGet e.1 rest with
        | none => rfl
        | some v => rw [hasKey, ho] at hk; simp at hk
      rw [← h1]
      simp [hasKey, objGet, hnone]
    · simp only [if_neg h1, Nat.zero_add]
      simp [hasKey, objGet, h1]

theorem hasKey_reconcile (liveIds : List String) (reg : TrackerReg) (n : Nat)
    (k0 : String) :
    hasKey k0 (reconcileTrackers liveIds reg n).1 = liveIds.contains k0 := by
  simp only [reconcileTrackers]
  rw [hasKey_filter_key, startTrackers_hasKey]
  cases hc : liveIds.contains k0 <;> simp [hc]

end Vlr

namespace Vlr

/-- C4: the active-tracker registry (a map keyed by id) never holds two
entries for one id — the property is preserved through the start phase
and the stop phase of `ReconcileTrackers` — and once `ReconcileTrackers`
completes the registry holds exactly one entry for every id observed
live in the cycle and none for any other id. -/
theorem trackerRegistryExact (liveIds : List String) (reg : TrackerReg) (n : Nat)
    (h : nodupKeys reg) :
    nodupKeys (startTrackers liveIds reg n).1 ∧
    nodupKeys (reconcileTrackers liveIds reg n).1 ∧
    ∀ k0, countKey k0 (reconcileTrackers liveIds reg n).1
        = if liveIds.contains k0 then 1 else 0 := by
  have hstart : nodupKeys (startTrackers liveIds reg n).1 :=
    startTrackers_nodup liveIds reg n h
  have hrec : nodupKeys (reconcileTrackers liveIds reg n).1 := by
    simp only [reconcileTrackers]
    exact ((List.filter_sublist _).map Prod.fst).nodup hstart
  refine ⟨hstart, hrec, fun k0 => ?_⟩
  simp only [reconcileTrackers]
  rw [countKey_filter_key, countKey_of_nodup _ hstart, startTrackers_hasKey]
  cases hc : liveIds.contains k0 <;> simp [hc]

/-- Witness for C4 at a concrete registry `{a ↦ 0, c ↦ 1}` and live set
`{a, b}`: after reconciliation ids `a` and `b` hold one entry each and
the stale id `c` holds none. -/
theorem trackerRegistryExact_witness :
    countKey "a" (reconcileTrackers ["a", "b"] [("a", 0), ("c", 1)] 5).1 = 1 ∧
    countKey "b" (reconcileTrackers ["a", "b"] [("a", 0), ("c", 1)] 5).1 = 1 ∧
    countKey "c" (reconcileTrackers ["a", "b"] [("a", 0), ("c", 1)] 5).1 = 0 := by
  have h := trackerRegistryExact ["a", "b"] [("a", 0), ("c", 1)] 5 (by decide)
  exact ⟨(h.2.2 "a").trans (by decide), (h.2.2 "b").trans (by decide),
    (h.2.2 "c").trans (by decide)⟩

/-- C2: on a tracker tick that extracted data, a write is issued exactly
when the record differs from the private snapshot (or no snapshot
exists); after a successful write the snapshot becomes the new record,
while a tick whose write fails (unsuccessful result or thrown error)
leaves the snapshot unchanged. -/
theorem trackerTickDiff (snapshot : Option MatchData) (d : MatchData)
    (w : WriteOutcome) :
    ((runTrackerStep snapshot (some d) w).2 = true ↔ snapshot ≠ some d) ∧
    (w = .ok true → (runTrackerStep snapshot (some d) w).1
        = if snapshot = some d then snapshot else some d) ∧
    (w ≠ .ok true → (runTrackerStep snapshot (some d) w).1 = snapshot) := by
  cases snapshot with
  | none =>
    cases w with
    | ok s => cases s <;> simp [runTrackerStep]
    | threw => simp [runTrackerStep]
  | some c =>
    by_cases hc : c = d
    · subst hc
      cases w with
      | ok s => cases s <;> simp [runTrackerStep]
      | threw => simp [runTrackerStep]
    · have hd : (decide (c = d)) = false := decide_eq_false hc
      have hs : ¬ some c = some d := by simpa using hc
      cases w with
      | ok s => cases s <;> simp [runTrackerStep, hd, hs, hc]
      | threw => simp [runTrackerStep, hd, hs, hc]

/-- Witness for C2: with no snapshot a write happens and a successful
write installs the record as the snapshot; re-extracting the identical
record then issues no write. -/
theorem trackerTickDiff_witness :
    (runTrackerStep none (some mdW) (.ok true)).1 = some mdW ∧
    (runTrackerStep (some mdW) (some mdW) (.ok true)).2 = false := by
  constructor
  · exact ((trackerTickDiff none mdW (.ok true)).2.1 rfl).trans (by decide)
  · have h := (trackerTickDiff (some mdW) mdW (.ok true)).1
    cases hr : (runTrackerStep (some mdW) (some mdW) (.ok true)).2
    · rfl
    · exact absurd rfl (h.mp hr)

/-- C9 counterexample: in `worker.js`, a cycle in which the only store
write throws still replaces the cache with the cycle's data (zero
successful writes), and the following cycle with identical extraction
results performs no write at all — the failed record is not retried. -/
theorem scannerV1FailedWrite_cex :
    (scannerUpsertPhaseV1 [("100", mdW)] (some []) (fun _ => .threw)).processedCount = 0 ∧
    (scannerUpsertPhaseV1 [("100", mdW)] (some []) (fun _ => .threw)).writesAttempted
      = [fixVlrId "100" mdW] ∧
    (scannerUpsertPhaseV1 [("100", mdW)] (some []) (fun _ => .threw)).cache
      = some [fixVlrId "100" mdW] ∧
    some [fixVlrId "100" mdW] ≠ (some [] : Option (List MatchData)) ∧
    (scannerUpsertPhaseV1 [("100", mdW)] (some [fixVlrId "100" mdW])
        (fun _ => .threw)).writesAttempted = [] := by
  exact ⟨by decide, by decide, by decide, by decide, by decide⟩

/-- C9 (amended): the `worker.js` scanner replaces its cached snapshot
with the cycle's sorted data whenever a change was detected — after the
write loop but regardless of the writes' outcomes — so re-running the
cycle on identical extraction results always yields zero write attempts,
even when every previous write failed. -/
theorem scannerV1CacheAdvance (cands : List (String × MatchData))
    (lastScraped : Option (List MatchData)) (o o2 : MatchData → WriteOutcome) :
    ((scannerUpsertPhaseV1 cands lastScraped o).cache
      = (scannerUpsertPhaseV1 cands lastScraped o2).cache) ∧
    ((scannerUpsertPhaseV1 cands lastScraped o).writesAttempted ≠ [] →
      (scannerUpsertPhaseV1 cands lastScraped o).cache
        = some (sortByVlrId (cands.map (fun p => fixVlrId p.1 p.2)))) ∧
    (scannerUpsertPhaseV1 cands
        ((scannerUpsertPhaseV1 cands lastScraped o).cache) o2).writesAttempted = [] := by
  have h2 : ∀ l : List MatchData, hasMatchesDataChanged l (some l) = false := by
    intro l; simp [hasMatchesDataChanged]
  cases hch : hasMatchesDataChanged
      (sortByVlrId (cands.map (fun p => fixVlrId p.1 p.2))) lastScraped <;>
    simp [scannerUpsertPhaseV1, hch, h2]

/-- Witness for C9 (amended) at a concrete failing cycle: the cache
advances to the sorted batch and the re-run does nothing. -/
theorem scannerV1CacheAdvance_witness :
    (scannerUpsertPhaseV1 [("100", mdW)] (some []) (fun _ => .threw)).cache
      = some (sortByVlrId ([("100", mdW)].map (fun p => fixVlrId p.1 p.2))) ∧
    (scannerUpsertPhaseV1 [("100", mdW)]
        ((scannerUpsertPhaseV1 [("100", mdW)] (some []) (fun _ => .threw)).cache)
        (fun _ => .threw)).writesAttempted = [] := by
  have h := scannerV1CacheAdvance [("100", mdW)] (some []) (fun _ => .threw)
    (fun _ => .threw)
  exact ⟨h.2.1 (by decide), h.2.2⟩

/-- C3 counterexample: re-submitting a record identical to the stored
one reports `updated`, not `unchanged` (the stored row itself is left
value-unchanged). -/
theorem upsertUnchanged_cex :
    (upsertMatch mdW [(mdW.vlrId, withSearch mdW)]).1.status = "updated" ∧
    (upsertMatch mdW [(mdW.vlrId, withSearch mdW)]).1.status ≠ "unchanged" ∧
    (upsertMatch mdW [(mdW.vlrId, withSearch mdW)]).2 = [(mdW.vlrId, withSearch mdW)] := by
  exact ⟨by decide, by decide, by decide⟩

/-- C3 (amended): submitting a record whose stored row already equals
the row the upsert would write reports `updated` — the operation's
result vocabulary is only {inserted, updated} — and leaves the store
content unchanged in value. -/
theorem upsertMatchRepeat (m : MatchData) (db : MatchStore)
    (hall : ∀ e ∈ db, e.1 = m.vlrId → e.2 = withSearch m)
    (hk : hasKey m.vlrId db = true) :
    (upsertMatch m db).1.status = "updated" ∧
    (upsertMatch m db).2 = db ∧
    ∀ (m' : MatchData) (db' : MatchStore),
      (upsertMatch m' db').1.status = "inserted" ∨
      (upsertMatch m' db').1.status = "updated" := by
  obtain ⟨v, hv⟩ : ∃ v, objGet m.vlrId db = some v := by
    cases ho : objGet m.vlrId db with
    | none => rw [hasKey, ho] at hk; simp at hk
    | some v => exact ⟨v, rfl⟩
  refine ⟨?_, ?_, ?_⟩
  · simp [upsertMatch, hv]
  · simp only [upsertMatch, hv]
    have : ∀ e ∈ db, (if e.1 = m.vlrId then (e.1, withSearch m) else e) = e := by
      intro e he
      by_cases h1 : e.1 = m.vlrId
      · rw [if_pos h1, ← hall e he h1]
      · rw [if_neg h1]
    rw [List.map_congr_left this]
    simp
  · intro m' db'
    cases ho : objGet m'.vlrId db' <;> simp [upsertMatch, ho]

/-- Witness for C3 (amended) at a concrete one-row store. -/
theorem upsertMatchRepeat_witness :
    (upsertMatch mdW [(mdW.vlrId, withSearch mdW)]).2 = [(mdW.vlrId, withSearch mdW)] ∧
    (upsertMatch mdLive [] ).1.status = "inserted" := by
  have h := upsertMatchRepeat mdW [(mdW.vlrId, withSearch mdW)] (by decide) (by decide)
  refine ⟨h.2.1, ?_⟩
  rcases h.2.2 mdLive [] with hi | hu
  · exact hi
  · exact absurd hu (by decide)

end Vlr

namespace Vlr

theorem mem_getChangedMatches (cur : List MatchData) (last : Option (List MatchData))
    (m : MatchData) :
    m ∈ getChangedMatches cur last ↔ m ∈ cur ∧ isChangedAgainst last m := by
  cases last with
  | none => simp [getChangedMatches, isChangedAgainst]
  | some old =>
    simp only [getChangedMatches, List.mem_filter, isChangedAgainst]
    refine and_congr_right fun _ => ?_
    cases ho : objGet m.vlrId (old.foldl (fun mp x => objSet x.vlrId x mp) []) with
    | none => simp [ho]
    | some o => simp [ho]

/-- C1: in a scanner cycle of the tracker-cache worker, the records
handed to the batch upsert are exactly the extracted candidates that the
change detector classified as changed minus those whose id is present in
the (just-reconciled) active-tracker registry; consequently no record
whose id is live — and hence owned by an active tracker — is written by
the scanner. -/
theorem scannerWriteSet (cands : List (String × MatchData)) (st : ScannerState) :
    (∀ m, m ∈ (scannerCycle cands st).writes ↔
        m ∈ sortByVlrId (cands.map (fun p => fixVlrId p.1 p.2)) ∧
        isChangedAgainst st.lastScraped m ∧
        hasKey m.vlrId (scannerCycle cands st).state.trackers = false) ∧
    ∀ m ∈ (scannerCycle cands st).writes,
      (liveIdsOf cands).contains m.vlrId = false := by
  have hw : (scannerCycle cands st).writes
      = (getChangedMatches (sortByVlrId (cands.map (fun p => fixVlrId p.1 p.2)))
          st.lastScraped).filter
          (fun m => !(hasKey m.vlrId
            (reconcileTrackers (liveIdsOf cands) st.trackers st.nextInterval).1)) := rfl
  have ht : (scannerCycle cands st).state.trackers
      = (reconcileTrackers (liveIdsOf cands) st.trackers st.nextInterval).1 := rfl
  constructor
  · intro m
    rw [hw, ht, List.mem_filter, mem_getChangedMatches]
    constructor
    · rintro ⟨⟨h1, h2⟩, h3⟩
      exact ⟨h1, h2, by simpa using h3⟩
    · rintro ⟨h1, h2, h3⟩
      exact ⟨⟨h1, h2⟩, by simpa using h3⟩
  · intro m hm
    rw [hw] at hm
    have h3 : hasKey m.vlrId
        (reconcileTrackers (liveIdsOf cands) st.trackers st.nextInterval).1 = false := by
      simpa using (List.mem_filter.mp hm).2
    rw [hasKey_reconcile] at h3
    exact h3

/-- Witness for C1: on a first cycle with one completed and one live
candidate, the completed record is written and the live record — whose
tracker was just started — is not. -/
theorem scannerWriteSet_witness :
    fixVlrId "7" mdW ∈ (scannerCycle [("7", mdW), ("8", mdLive)] ⟨none, [], 0⟩).writes ∧
    fixVlrId "8" mdLive ∉ (scannerCycle [("7", mdW), ("8", mdLive)] ⟨none, [], 0⟩).writes := by
  have h := scannerWriteSet [("7", mdW), ("8", mdLive)] ⟨none, [], 0⟩
  constructor
  · have hs : sortByVlrId (List.map (fun p => fixVlrId p.1 p.2)
        [("7", mdW), ("8", mdLive)]) = [fixVlrId "7" mdW, fixVlrId "8" mdLive] := by
      decide
    exact (h.1 _).mpr ⟨by rw [hs]; exact List.mem_cons_self _ _, trivial, by decide⟩
  · intro hmem
    exact absurd (h.2 _ hmem) (by decide)

end Vlr

namespace Vlr

/-- Inversion of a successful `parseDetailedMatchData`: the shape of the
returned record in terms of the page. -/
theorem parse_ok_inv (p : DetailPage) (u : String) (md : MatchData)
    (hp : parseDetailedMatchData p u = .ok md) :
    md.status = overallStatusOf p ∧
    md.team1.name = jsTrim p.team1NameText ∧
    md.team2.name = jsTrim p.team2NameText ∧
    (∃ ts, md.time = some ts) ∧
    md.maps = some (if overallStatusOf p = .completed
        then (resolvedMaps p (mapPicksOf p.headerNote) (jsTrim p.team1NameText)
          (jsTrim p.team2NameText)).map coerceUnplayed
        else resolvedMaps p (mapPicksOf p.headerNote) (jsTrim p.team1NameText)
          (jsTrim p.team2NameText)) := by
  simp only [parseDetailedMatchData] at hp
  split at hp
  · exact absurd hp (by simp)
  · split at hp
    · exact absurd hp (by simp)
    · have hmd := Except.ok.inj hp
      subst hmd
      exact ⟨rfl, rfl, rfl, ⟨_, rfl⟩, rfl⟩

/-- C5: the validated entry point `getVlrMatchDetails` discards — it
returns `none` through a total function, every throw path of the source
being caught — any parsed record whose timestamp is null, whose `maps`
field is absent, or whose two team names are both the placeholder
`TBD`; consequently every record it passes onward has a non-null
timestamp, a present `maps` field, and at least one resolved team
name. -/
theorem detailValidationGate (u : String) (p : DetailPage) (md : MatchData)
    (hp : parseDetailedMatchData p u = .ok md) :
    ((md.time = none ∨ md.maps = none ∨
        (md.team1.name = "TBD" ∧ md.team2.name = "TBD")) →
      getVlrMatchDetails u (.ok p) = none) ∧
    (∀ md', getVlrMatchDetails u (.ok p) = some md' →
      md'.time ≠ none ∧ md'.maps ≠ none ∧
      ¬ (md'.team1.name = "TBD" ∧ md'.team2.name = "TBD")) := by
  have hunf : getVlrMatchDetails u (.ok p)
      = if u = "" ∨ (jsParseInt u).isNone then none
        else match parseDetailedMatchData p u with
          | .error _ => none
          | .ok matchData => validateGate matchData := rfl
  constructor
  · intro hbad
    have hg : validateGate md = none := by
      unfold validateGate
      rcases hbad with h | h | h
      · rw [h]; simp
      · by_cases ht : md.time.getD "" = ""
        · rw [if_pos ht]
        · rw [if_neg ht, if_pos h]
      · by_cases ht : md.time.getD "" = ""
        · rw [if_pos ht]
        · rw [if_neg ht]
          by_cases hm : md.maps = none
          · rw [if_pos hm]
          · rw [if_neg hm, if_pos h]
    rw [hunf]
    by_cases hu : u = "" ∨ (jsParseInt u).isNone
    · rw [if_pos hu]
    · rw [if_neg hu, hp]
      exact hg
  · intro md' hsome
    rw [hunf] at hsome
    by_cases hu : u = "" ∨ (jsParseInt u).isNone
    · rw [if_pos hu] at hsome; exact absurd hsome (by simp)
    · rw [if_neg hu, hp] at hsome
      have hval : validateGate md = some md' := hsome
      unfold validateGate at hval
      by_cases ht : md.time.getD "" = ""
      · rw [if_pos ht] at hval; exact absurd hval (by simp)
      · rw [if_neg ht] at hval
        by_cases hm : md.maps = none
        · rw [if_pos hm] at hval; exact absurd hval (by simp)
        · rw [if_neg hm] at hval
          by_cases hn : md.team1.name = "TBD" ∧ md.team2.name = "TBD"
          · rw [if_pos hn] at hval; exact absurd hval (by simp)
          · rw [if_neg hn] at hval
            have heq : md = md' := Option.some.inj hval
            subst heq
            refine ⟨?_, hm, hn⟩
            intro h0; rw [h0] at ht; exact ht rfl

/-- Witness for C5: a well-formed page whose two teams are both `TBD`
parses successfully yet is discarded. -/
theorem detailValidationGate_witness :
    getVlrMatchDetails "77" (.ok pageTBD) = none :=
  (detailValidationGate "77" pageTBD mdTBD (by decide)).1
    (Or.inr (Or.inr (by decide)))

end Vlr

namespace Vlr

/-- C6: on a successful parse, when the overall status is completed the
returned maps are the resolved maps with every map still at the default
`upcoming` rewritten to `unplayed` — the rewrite changes nothing but the
status, and maps resolved to `completed` or `live` are untouched; no map
of a completed record remains `upcoming`; and when the overall status is
not completed the resolved maps are returned unmodified. -/
theorem unplayedCoercion (p : DetailPage) (u : String) (md : MatchData)
    (hp : parseDetailedMatchData p u = .ok md) :
    (md.status = .completed →
      md.maps = some ((resolvedMaps p (mapPicksOf p.headerNote)
          (jsTrim p.team1NameText) (jsTrim p.team2NameText)).map coerceUnplayed) ∧
      ∀ m ∈ md.maps.getD [], m.status ≠ MapStatus.upcoming) ∧
    (md.status ≠ .completed →
      md.maps = some (resolvedMaps p (mapPicksOf p.headerNote)
          (jsTrim p.team1NameText) (jsTrim p.team2NameText))) ∧
    (∀ m : MapResult, m.status = .upcoming →
      coerceUnplayed m = { m with status := MapStatus.unplayed }) ∧
    (∀ m : MapResult, m.status ≠ .upcoming → coerceUnplayed m = m) := by
  obtain ⟨hst, _, _, _, hmaps⟩ := parse_ok_inv p u md hp
  rw [← hst] at hmaps
  have hco : ∀ m : MapResult, m.status = .upcoming →
      coerceUnplayed m = { m with status := MapStatus.unplayed } := by
    intro m hm; unfold coerceUnplayed; rw [if_pos hm]
  have hco2 : ∀ m : MapResult, m.status ≠ .upcoming → coerceUnplayed m = m := by
    intro m hm; unfold coerceUnplayed; rw [if_neg hm]
  refine ⟨?_, ?_, hco, hco2⟩
  · intro hcomp
    rw [hmaps, if_pos hcomp]
    refine ⟨rfl, ?_⟩
    intro m hm
    simp only [hmaps, if_pos hcomp, Option.getD_some] at hm
    obtain ⟨m0, _, rfl⟩ := List.mem_map.mp hm
    unfold coerceUnplayed
    by_cases h0 : m0.status = .upcoming
    · rw [if_pos h0]; simp
    · rw [if_neg h0]; exact h0
  · intro hne
    rw [hmaps, if_neg hne]

/-- Witness for C6: the completed page `pageC6` has a map that never
resolved past `upcoming`; the returned maps are exactly the resolved
maps after the unplayed coercion. -/
theorem unplayedCoercion_witness :
    mdC6.maps = some ((resolvedMaps pageC6 (mapPicksOf pageC6.headerNote)
        (jsTrim pageC6.team1NameText) (jsTrim pageC6.team2NameText)).map
        coerceUnplayed) :=
  ((unplayedCoercion pageC6 "66" mdC6 (by decide)).1 (by decide)).1

/-- Players of an aggregate (agent-free) stats table carry no agent. -/
theorem parseTable_noAgent (rows : List RawStatRow) (t : String) :
    ∀ s ∈ parsePlayerStatsTable rows t false,
      s.agent.name = none ∧ s.agent.iconUrl = none := by
  intro s hs
  unfold parsePlayerStatsTable at hs
  rw [List.mem_filterMap] at hs
  obtain ⟨row, _, hrow⟩ := hs
  by_cases hpn : jsTrim row.playerName = ""
  · rw [if_pos hpn] at hrow; exact absurd hrow (by simp)
  · rw [if_neg hpn] at hrow
    have := Option.some.inj hrow
    rw [← this]
    exact ⟨rfl, rfl⟩

/-- Maps produced by the navigation-tab path and by the single-map
fallback always carry a (possibly empty) rounds array, never `null`. -/
theorem resolvedMaps_rounds (p : DetailPage) (pk : List (String × String))
    (t1 t2 : String) (hnc : overallStatusOf p ≠ .completed) :
    ∀ m ∈ resolvedMaps p pk t1 t2, m.rounds ≠ none := by
  intro m hm
  unfold resolvedMaps at hm
  have hamt : (if overallStatusOf p = MStatus.completed ∧ ¬ (allMapsSel p).isEmpty
      then [allMapsEntry (allMapsSel p) t1 t2] else []) = [] :=
    if_neg (fun h => hnc h.1)
  rw [hamt] at hm
  dsimp only at hm
  rw [List.nil_append] at hm
  by_cases hb : ((p.navItems.filter (fun el => ¬ el.modAll)).map
      (navMapOf p pk t1 t2)).isEmpty
  · rw [if_pos hb] at hm
    unfold fallbackMaps at hm
    cases hc : p.statsContainer with
    | none => rw [hc] at hm; exact absurd hm (by simp)
    | some fc =>
      rw [hc] at hm
      have := List.mem_singleton.mp hm
      rw [this]
      simp
  · rw [if_neg hb] at hm
    obtain ⟨el, _, rfl⟩ := List.mem_map.mp hm
    unfold navMapOf
    simp

end Vlr

namespace Vlr

/-- C10: when a detail page parses to overall status completed and an
aggregate all-maps container is present, the returned maps sequence
begins with the synthetic entry — name `All Maps`, status `completed`,
no pick, both scores 0, `null` rounds, and stat rows carrying no agent
name or icon; when the overall status is not completed every returned
map carries a non-null rounds array, so no such aggregate entry
occurs. -/
theorem allMapsAggregate (p : DetailPage) (u : String) (md : MatchData)
    (hp : parseDetailedMatchData p u = .ok md) :
    (md.status = .completed → (allMapsSel p).isEmpty = false →
      (∃ rest, md.maps = some (allMapsEntry (allMapsSel p)
          (jsTrim p.team1NameText) (jsTrim p.team2NameText) :: rest)) ∧
      ∀ sel t1 t2, (allMapsEntry sel t1 t2).name = "All Maps" ∧
        (allMapsEntry sel t1 t2).status = .completed ∧
        (allMapsEntry sel t1 t2).pickedBy = none ∧
        (allMapsEntry sel t1 t2).team1Score = 0 ∧
        (allMapsEntry sel t1 t2).team2Score = 0 ∧
        (allMapsEntry sel t1 t2).rounds = none ∧
        ∀ s ∈ (allMapsEntry sel t1 t2).stats,
          s.agent.name = none ∧ s.agent.iconUrl = none) ∧
    (md.status ≠ .completed → ∀ m ∈ md.maps.getD [], m.rounds ≠ none) := by
  obtain ⟨hst, _, _, _, hmaps⟩ := parse_ok_inv p u md hp
  rw [← hst] at hmaps
  constructor
  · intro hcomp hsel
    constructor
    · rw [hmaps, if_pos hcomp]
      rw [hst] at hcomp
      have hcond : overallStatusOf p = MStatus.completed ∧ ¬ (allMapsSel p).isEmpty := by
        exact ⟨hcomp, by rw [hsel]; simp⟩
      unfold resolvedMaps
      rw [if_pos hcond]
      dsimp only
      rw [List.cons_append, List.nil_append]
      rw [if_neg (by simp : ¬ ((allMapsEntry (allMapsSel p) (jsTrim p.team1NameText)
            (jsTrim p.team2NameText)
          :: (p.navItems.filter (fun el => ¬ el.modAll)).map
            (navMapOf p (mapPicksOf p.headerNote) (jsTrim p.team1NameText)
              (jsTrim p.team2NameText))).isEmpty = true))]
      rw [List.map_cons]
      have hce : coerceUnplayed (allMapsEntry (allMapsSel p) (jsTrim p.team1NameText)
          (jsTrim p.team2NameText)) = allMapsEntry (allMapsSel p)
          (jsTrim p.team1NameText) (jsTrim p.team2NameText) := by
        unfold coerceUnplayed allMapsEntry
        rw [if_neg]
        intro h
        exact absurd h (by simp)
      rw [hce]
      exact ⟨_, rfl⟩
    · intro sel t1 t2
      refine ⟨rfl, rfl, rfl, rfl, rfl, rfl, ?_⟩
      intro s hs
      unfold allMapsEntry at hs
      rcases List.mem_append.mp hs with h | h
      · exact parseTable_noAgent _ _ s h
      · exact parseTable_noAgent _ _ s h
  · intro hne m hm
    rw [hmaps, if_neg hne] at hm
    simp only [Option.getD_some] at hm
    rw [hst] at hne
    exact resolvedMaps_rounds p _ _ _ hne m hm

/-- Witness for C10: the completed page `pageC10` yields a maps
sequence beginning with the synthetic aggregate entry. -/
theorem allMapsAggregate_witness :
    ∃ rest, mdC10.maps = some (allMapsEntry (allMapsSel pageC10)
        (jsTrim pageC10.team1NameText) (jsTrim pageC10.team2NameText) :: rest) :=
  ((allMapsAggregate pageC10 "88" mdC10 (by decide)).1 (by decide) (by decide)).1

end Vlr


namespace Vlr

/-! ## Supporting lemmas: trimming, whitespace and map names -/

theorem head_dropWhile_false (p : α → Bool) (l : List α) (c : α)
    (h : (l.dropWhile p).head? = some c) : p c = false := by
  induction l with
  | nil => simp [List.dropWhile] at h
  | cons x xs ih =>
    by_cases hx : p x
    · rw [List.dropWhile_cons_of_pos hx] at h; exact ih h
    · rw [List.dropWhile_cons_of_neg hx] at h
      have hxc : x = c := by simpa using h
      subst hxc
      exact Bool.eq_false_iff.mpr hx

theorem trimChars_last (l : List Char) (c : Char)
    (h : (trimChars l).getLast? = some c) : c.isWhitespace = false := by
  unfold trimChars at h
  rw [List.getLast?_reverse] at h
  exact head_dropWhile_false _ _ _ h

theorem trimChars_head (l : List Char) (c : Char)
    (h : (trimChars l).head? = some c) : c.isWhitespace = false := by
  unfold trimChars at h
  rw [List.head?_reverse] at h
  obtain ⟨t, ht⟩ := List.dropWhile_suffix
    (l := (l.dropWhile Char.isWhitespace).reverse) Char.isWhitespace
  have h2 : (l.dropWhile Char.isWhitespace).reverse.getLast? = some c := by
    rw [← ht, List.getLast?_append, h]
    rfl
  rw [List.getLast?_reverse] at h2
  exact head_dropWhile_false _ _ _ h2

theorem dropWhile_eq_self_of_head (p : α → Bool) (l : List α)
    (h : ∀ c, l.head? = some c → p c = false) : l.dropWhile p = l := by
  cases l with
  | nil => rfl
  | cons x xs =>
    rw [List.dropWhile_cons_of_neg]
    intro hx
    rw [h x rfl] at hx
    exact Bool.false_ne_true hx

theorem trimChars_idem (l : List Char) : trimChars (trimChars l) = trimChars l := by
  have h1 : (trimChars l).dropWhile Char.isWhitespace = trimChars l :=
    dropWhile_eq_self_of_head _ _ (fun c hc => trimChars_head l c hc)
  show (((trimChars l).dropWhile _).reverse.dropWhile _).reverse = trimChars l
  rw [h1]
  have h2 : (trimChars l).reverse.dropWhile Char.isWhitespace = (trimChars l).reverse := by
    refine dropWhile_eq_self_of_head _ _ (fun c hc => ?_)
    rw [List.head?_reverse] at hc
    exact trimChars_last l c hc
  rw [h2, List.reverse_reverse]

theorem jsTrim_idem (s : String) : jsTrim (jsTrim s) = jsTrim s := by
  show String.mk (trimChars (trimChars s.data)) = String.mk (trimChars s.data)
  rw [trimChars_idem]

theorem mem_trimChars (l : List Char) (c : Char) (h : c ∈ trimChars l) : c ∈ l := by
  unfold trimChars at h
  rw [List.mem_reverse] at h
  have h2 := (List.dropWhile_sublist _).subset h
  rw [List.mem_reverse] at h2
  exact (List.dropWhile_sublist _).subset h2

theorem mem_collapseAux (l : List Char) (c : Char) :
    ∀ b, c ∈ collapseAux b l → c = ' ' ∨ c ∈ l := by
  induction l with
  | nil =>
    intro b h
    simp [collapseAux] at h
  | cons x rest ih =>
    intro b h
    by_cases hx : x.isWhitespace
    · rw [collapseAux, if_pos hx] at h
      by_cases hb : b
      · subst hb
        simp only [if_pos rfl] at h
        rcases ih true h with h2 | h2
        · exact Or.inl h2
        · exact Or.inr (List.mem_cons_of_mem _ h2)
      · have hb' : b = false := Bool.eq_false_iff.mpr hb
        subst hb'
        simp only [Bool.false_eq_true, if_false] at h
        rcases List.mem_cons.mp h with h1 | h1
        · exact Or.inl h1
        · rcases ih true h1 with h2 | h2
          · exact Or.inl h2
          · exact Or.inr (List.mem_cons_of_mem _ h2)
    · rw [collapseAux, if_neg hx] at h
      rcases List.mem_cons.mp h with h1 | h1
      · subst h1; exact Or.inr (List.mem_cons_self _ _)
      · rcases ih false h1 with h2 | h2
        · exact Or.inl h2
        · exact Or.inr (List.mem_cons_of_mem _ h2)

theorem mem_collapseWsChars (l : List Char) (c : Char) :
    c ∈ collapseWsChars l → c = ' ' ∨ c ∈ l :=
  mem_collapseAux l c false

/-- `normalizeMapName` preserves digit-freeness, removes every hyphen,
and returns a trimmed string. -/
theorem normalizeMapName_props (x : String)
    (hd : ∀ c ∈ x.data, ¬ c.isDigit) :
    (∀ c ∈ (normalizeMapName x).data, ¬ c.isDigit ∧ c ≠ '-') ∧
    jsTrim (normalizeMapName x) = normalizeMapName x := by
  unfold normalizeMapName
  by_cases hx : x = ""
  · rw [if_pos hx]
    refine ⟨?_, by decide⟩
    intro c hc
    simp [String.data] at hc
  · rw [if_neg hx]
    constructor
    · intro c hc
      have hc2 : c ∈ (removeChar '-' x).data := mem_trimChars _ _ hc
      obtain ⟨hcx, hcne⟩ := List.mem_filter.mp hc2
      exact ⟨hd c hcx, by simpa using hcne⟩
    · exact jsTrim_idem _

theorem noDigit_navName (raw : String) :
    ∀ c ∈ (jsTrim (stripDigits raw)).data, ¬ c.isDigit := by
  intro c hc
  have hc2 : c ∈ (stripDigits raw).data := mem_trimChars _ _ hc
  have h3 := List.mem_filter.mp hc2
  simpa using h3.2

theorem noDigit_fallbackName (raw : String) :
    ∀ c ∈ (jsTrim (stripColonsTabsNl (collapseWs (stripDigits raw)))).data,
      ¬ c.isDigit := by
  intro c hc
  have h1 : c ∈ (stripColonsTabsNl (collapseWs (stripDigits raw))).data :=
    mem_trimChars _ _ hc
  have h2 : c ∈ (collapseWs (stripDigits raw)).data := (List.mem_filter.mp h1).1
  rcases mem_collapseWsChars _ _ h2 with h3 | h3
  · subst h3; decide
  · have h4 := List.mem_filter.mp h3
    simpa using h4.2

end Vlr

namespace Vlr

/-- C7 counterexample: the multi-map (navigation-tab) path does not
collapse internal whitespace.  The raw tab name `Ice  box` (two internal
spaces) is extracted verbatim as the map name, while the claimed
normalization — digits and hyphens stripped, whitespace collapsed —
would give `Ice box`. -/
theorem mapNameNormalization_cex :
    ((parseDetailedMatchData pageC7 "55").toOption.bind
        (fun md => md.maps.bind List.head?)).map (fun m => m.name)
      = some "Ice  box" ∧
    specMapNameNorm "Ice  box" = "Ice box" ∧
    ("Ice  box" : String) ≠ "Ice box" :=
  ⟨by decide, by decide, by decide⟩

/-- C7 (amended): every map name in a parsed detail record has all
digits and hyphens stripped and carries no surrounding whitespace; the
multi-map path, however, leaves internal whitespace uncollapsed (only
the single-map fallback collapses it), as the counterexample shows. -/
theorem mapNameNormalization (p : DetailPage) (u : String) (md : MatchData)
    (hp : parseDetailedMatchData p u = .ok md) :
    ∀ m ∈ md.maps.getD [],
      (∀ c ∈ m.name.data, ¬ c.isDigit ∧ c ≠ '-') ∧ jsTrim m.name = m.name := by
  obtain ⟨hst, _, _, _, hmaps⟩ := parse_ok_inv p u md hp
  intro m hm
  rw [hmaps] at hm
  simp only [Option.getD_some] at hm
  have hm' : ∃ m0 ∈ resolvedMaps p (mapPicksOf p.headerNote) (jsTrim p.team1NameText)
      (jsTrim p.team2NameText), m.name = m0.name := by
    by_cases hc : overallStatusOf p = .completed
    · rw [if_pos hc] at hm
      obtain ⟨m0, hm0, rfl⟩ := List.mem_map.mp hm
      refine ⟨m0, hm0, ?_⟩
      unfold coerceUnplayed
      by_cases h0 : m0.status = .upcoming
      · rw [if_pos h0]
      · rw [if_neg h0]
    · rw [if_neg hc] at hm
      exact ⟨m, hm, rfl⟩
  obtain ⟨m0, hm0, hname⟩ := hm'
  rw [hname]
  unfold resolvedMaps at hm0
  have hnav : ∀ el : NavItem,
      ((∀ c ∈ (navMapOf p (mapPicksOf p.headerNote) (jsTrim p.team1NameText)
          (jsTrim p.team2NameText) el).name.data, ¬ c.isDigit ∧ c ≠ '-') ∧
        jsTrim (navMapOf p (mapPicksOf p.headerNote) (jsTrim p.team1NameText)
          (jsTrim p.team2NameText) el).name
          = (navMapOf p (mapPicksOf p.headerNote) (jsTrim p.team1NameText)
            (jsTrim p.team2NameText) el).name) := by
    intro el
    exact normalizeMapName_props _ (noDigit_navName el.nameText)
  have hfb : ∀ m1 ∈ fallbackMaps p (mapPicksOf p.headerNote) (jsTrim p.team1NameText)
      (jsTrim p.team2NameText),
      (∀ c ∈ m1.name.data, ¬ c.isDigit ∧ c ≠ '-') ∧ jsTrim m1.name = m1.name := by
    intro m1 hm1
    unfold fallbackMaps at hm1
    cases hsc : p.statsContainer with
    | none => rw [hsc] at hm1; exact absurd hm1 (by simp)
    | some fc =>
      rw [hsc] at hm1
      have hq := List.mem_singleton.mp hm1
      subst hq
      exact normalizeMapName_props _ (noDigit_fallbackName (fc.mapText.getD "Unknown Map"))
  by_cases hcond : overallStatusOf p = .completed ∧ ¬ (allMapsSel p).isEmpty
  · rw [if_pos hcond] at hm0
    dsimp only at hm0
    rw [List.cons_append, List.nil_append] at hm0
    rw [if_neg (by simp : ¬ ((allMapsEntry (allMapsSel p) (jsTrim p.team1NameText)
          (jsTrim p.team2NameText)
        :: (p.navItems.filter (fun el => ¬ el.modAll)).map
          (navMapOf p (mapPicksOf p.headerNote) (jsTrim p.team1NameText)
            (jsTrim p.team2NameText))).isEmpty = true))] at hm0
    rcases List.mem_cons.mp hm0 with h1 | h1
    · subst h1
      show (∀ c ∈ ("All Maps" : String).data, ¬ c.isDigit ∧ c ≠ '-') ∧
        jsTrim ("All Maps" : String) = "All Maps"
      exact ⟨by decide, by decide⟩
    · obtain ⟨el, _, rfl⟩ := List.mem_map.mp h1
      exact hnav el
  · rw [if_neg hcond] at hm0
    dsimp only at hm0
    rw [List.nil_append] at hm0
    by_cases hb : ((p.navItems.filter (fun el => ¬ el.modAll)).map
        (navMapOf p (mapPicksOf p.headerNote) (jsTrim p.team1NameText)
          (jsTrim p.team2NameText))).isEmpty
    · rw [if_pos hb] at hm0
      exact hfb m0 hm0
    · rw [if_neg hb] at hm0
      obtain ⟨el, _, rfl⟩ := List.mem_map.mp hm0
      exact hnav el

/-- Witness for C7 (amended) on the concrete page `pageC7`: the
extracted name `Ice  box` is trimmed (though its internal whitespace
survives). -/
theorem mapNameNormalization_witness :
    jsTrim ("Ice  box" : String) = "Ice  box" := by
  have h := mapNameNormalization pageC7 "55" mdC7 (by decide)
  have hmem : (⟨"Ice  box", MapStatus.upcoming, none, 0, 0, [], some []⟩ : MapResult)
      ∈ mdC7.maps.getD [] := List.mem_singleton.mpr rfl
  exact (h _ hmem).2

end Vlr

namespace Vlr

/-! ## Supporting lemmas: the pick table -/

theorem mem_objSet (k : String) (v : α) (l : List (String × α)) :
    ∀ kv ∈ objSet k v l, kv = (k, v) ∨ kv ∈ l := by
  induction l with
  | nil => intro kv h; exact Or.inl (List.mem_singleton.mp h)
  | cons e rest ih =>
    intro kv h
    by_cases he : e.1 = k
    · rw [objSet, if_pos he] at h
      rcases List.mem_cons.mp h with h1 | h1
      · exact Or.inl h1
      · exact Or.inr (List.mem_cons_of_mem _ h1)
    · rw [objSet, if_neg he] at h
      rcases List.mem_cons.mp h with h1 | h1
      · exact Or.inr (h1 ▸ List.mem_cons_self _ _)
      · rcases ih kv h1 with h2 | h2
        · exact Or.inl h2
        · exact Or.inr (List.mem_cons_of_mem _ h2)

theorem hasKey_objSet_self (k : String) (v : α) (l : List (String × α)) :
    hasKey k (objSet k v l) = true := by
  induction l with
  | nil => simp [objSet, hasKey, objGet]
  | cons e rest ih =>
    by_cases he : e.1 = k
    · rw [objSet, if_pos he]; simp [hasKey, objGet]
    · rw [objSet, if_neg he]
      simpa [hasKey, objGet, he] using ih

theorem hasKey_objSet_mono (k k2 : String) (v : α) (l : List (String × α))
    (h : hasKey k l = true) : hasKey k (objSet k2 v l) = true := by
  induction l with
  | nil => simp [hasKey, objGet] at h
  | cons e rest ih =>
    by_cases he : e.1 = k2
    · rw [objSet, if_pos he]
      by_cases hek : k2 = k
      · simp [hasKey, objGet, hek]
      · simp only [hasKey, objGet, if_neg hek]
        rw [hasKey, objGet, he, if_neg hek] at h
        exact h
    · rw [objSet, if_neg he]
      by_cases hk : e.1 = k
      · simp [hasKey, objGet, hk]
      · rw [hasKey, objGet, if_neg hk] at h ⊢
        exact ih h

/-- Soundness of a `foldl` over an accumulator-building step. -/
theorem foldl_step_sound (step : List (String × α) → β → List (String × α))
    (Q : β → (String × α) → Prop)
    (hstep : ∀ acc x, ∀ kv ∈ step acc x, kv ∈ acc ∨ Q x kv) :
    ∀ (parts : List β) (init : List (String × α)) (kv : String × α),
      kv ∈ parts.foldl step init → kv ∈ init ∨ ∃ x ∈ parts, Q x kv := by
  intro parts
  induction parts with
  | nil => intro init kv h; exact Or.inl h
  | cons x rest ih =>
    intro init kv h
    rw [List.foldl_cons] at h
    rcases ih (step init x) kv h with h1 | h1
    · rcases hstep init x kv h1 with h2 | h2
      · exact Or.inl h2
      · exact Or.inr ⟨x, List.mem_cons_self _ _, h2⟩
    · obtain ⟨y, hy, hq⟩ := h1
      exact Or.inr ⟨y, List.mem_cons_of_mem _ hy, hq⟩

/-- Keys once present stay present through a `foldl` whose step only
does `objSet`-like updates. -/
theorem foldl_step_keys (step : List (String × α) → β → List (String × α))
    (hmono : ∀ acc x k, hasKey k acc = true → hasKey k (step acc x) = true) :
    ∀ (parts : List β) (init : List (String × α)) (k : String),
      hasKey k init = true → hasKey k (parts.foldl step init) = true := by
  intro parts
  induction parts with
  | nil => intro init k h; exact h
  | cons x rest ih =>
    intro init k h
    rw [List.foldl_cons]
    exact ih _ _ (hmono init x k h)

theorem pickStep_sound (acc : List (String × String)) (part : String) :
    ∀ kv ∈ pickStep acc part, kv ∈ acc ∨
      (strIncludes "pick" (toLowerStr part) = true ∧ 3 ≤ (pickWords part).length ∧
       kv = ((pickWords part).getD 2 "", (pickWords part).getD 0 "")) := by
  intro kv h
  unfold pickStep at h
  by_cases h1 : strIncludes "pick" (toLowerStr part)
  · rw [if_pos h1] at h
    by_cases h2 : 3 ≤ (pickWords part).length
    · rw [if_pos h2] at h
      rcases mem_objSet _ _ _ kv h with h3 | h3
      · exact Or.inr ⟨h1, h2, h3⟩
      · exact Or.inl h3
    · rw [if_neg h2] at h; exact Or.inl h
  · rw [if_neg h1] at h; exact Or.inl h

theorem pickStep_mono (acc : List (String × String)) (part : String) (k : String)
    (h : hasKey k acc = true) : hasKey k (pickStep acc part) = true := by
  unfold pickStep
  by_cases h1 : strIncludes "pick" (toLowerStr part)
  · rw [if_pos h1]
    by_cases h2 : 3 ≤ (pickWords part).length
    · rw [if_pos h2]; exact hasKey_objSet_mono _ _ _ _ h
    · rw [if_neg h2]; exact h
  · rw [if_neg h1]; exact h

theorem rekeyStep_sound (acc : List (String × String)) (kv0 : String × String) :
    ∀ kv ∈ rekeyStep acc kv0, kv ∈ acc ∨ kv = (normalizeMapName kv0.1, kv0.2) := by
  intro kv h
  rcases mem_objSet _ _ _ kv h with h1 | h1
  · exact Or.inr h1
  · exact Or.inl h1

theorem rekeyStep_mono (acc : List (String × String)) (kv0 : String × String)
    (k : String) (h : hasKey k acc = true) : hasKey k (rekeyStep acc kv0) = true :=
  hasKey_objSet_mono _ _ _ _ h

/-- Every entry of `parsePicks` comes from a qualifying clause. -/
theorem parsePicks_sound (note : String) :
    ∀ kv ∈ parsePicks note, ∃ part ∈ pickClauses note,
      strIncludes "pick" (toLowerStr part) = true ∧ 3 ≤ (pickWords part).length ∧
      kv = ((pickWords part).getD 2 "", (pickWords part).getD 0 "") := by
  intro kv h
  unfold parsePicks at h
  by_cases hn : note = ""
  · rw [if_pos hn] at h; exact absurd h (by simp)
  · rw [if_neg hn] at h
    rcases foldl_step_sound pickStep _ pickStep_sound (pickClauses note) [] kv h with
      h1 | h1
    · exact absurd h1 (by simp)
    · obtain ⟨part, hpart, hq⟩ := h1
      exact ⟨part, hpart, hq⟩

/-- Every qualifying clause leaves its (normalized) key present in the
final pick table. -/
theorem parsePicks_complete (note : String) :
    ∀ part ∈ pickClauses note, note ≠ "" →
      strIncludes "pick" (toLowerStr part) = true →
      3 ≤ (pickWords part).length →
      hasKey ((pickWords part).getD 2 "") (parsePicks note) = true := by
  intro part hpart hn h1 h2
  unfold parsePicks
  rw [if_neg hn]
  obtain ⟨l1, l2, hsplit⟩ := List.append_of_mem hpart
  rw [hsplit, List.foldl_append, List.foldl_cons]
  refine foldl_step_keys pickStep pickStep_mono l2 _ _ ?_
  unfold pickStep
  rw [if_pos h1, if_pos h2]
  exact hasKey_objSet_self _ _ _

end Vlr

namespace Vlr

theorem rekey_complete (entries : List (String × String)) :
    ∀ kv0 ∈ entries,
      hasKey (normalizeMapName kv0.1) (entries.foldl rekeyStep []) = true := by
  intro kv0 h
  obtain ⟨l1, l2, hsplit⟩ := List.append_of_mem h
  rw [hsplit, List.foldl_append, List.foldl_cons]
  refine foldl_step_keys rekeyStep (fun acc x k hk => rekeyStep_mono acc x k hk)
    l2 _ _ ?_
  exact hasKey_objSet_self _ _ _

/-- C8 counterexample: the source tokenizes a clause by splitting on
single spaces, not on whitespace runs.  In the clause `TL  pick Corrode`
(two spaces after `TL`) the third single-space token is `pick`, so the
code stores `pick ↦ TL`, while the claimed whitespace tokenization would
store `Corrode ↦ TL`; the `Corrode` lookup comes back empty. -/
theorem pickTable_cex :
    mapPicksOf "TL  pick Corrode" = [("pick", "TL")] ∧
    specPickTable "TL  pick Corrode" = [("Corrode", "TL")] ∧
    objGet "Corrode" (mapPicksOf "TL  pick Corrode") = none :=
  ⟨by decide, by decide, by decide⟩

/-- C8 (amended): every entry of the pick table comes from a trimmed
semicolon clause that contains `pick` and has at least three tokens when
split on single spaces (runs of spaces produce empty tokens): the entry
maps the normalized third such token to the first; conversely each such
clause leaves its normalized third token present as a key; and the
example note `TL pick Corrode; SEN pick Bind` yields exactly
`{Corrode ↦ TL, Bind ↦ SEN}`. -/
theorem pickTableSpec (note : String) :
    (∀ kv ∈ mapPicksOf note, ∃ part ∈ pickClauses note,
        strIncludes "pick" (toLowerStr part) = true ∧
        3 ≤ (pickWords part).length ∧
        kv.1 = normalizeMapName ((pickWords part).getD 2 "") ∧
        kv.2 = (pickWords part).getD 0 "") ∧
    (∀ part ∈ pickClauses note,
        strIncludes "pick" (toLowerStr part) = true →
        3 ≤ (pickWords part).length →
        hasKey (normalizeMapName ((pickWords part).getD 2 ""))
          (mapPicksOf note) = true) ∧
    mapPicksOf "TL pick Corrode; SEN pick Bind"
      = [("Corrode", "TL"), ("Bind", "SEN")] := by
  refine ⟨?_, ?_, by decide⟩
  · intro kv h
    unfold mapPicksOf at h
    rcases foldl_step_sound rekeyStep
        (fun kv0 kv => kv = (normalizeMapName kv0.1, kv0.2))
        rekeyStep_sound (parsePicks note) [] kv h with h1 | h1
    · exact absurd h1 (by simp)
    · obtain ⟨kv0, hkv0, heq⟩ := h1
      obtain ⟨part, hpart, hq1, hq2, hkv0eq⟩ := parsePicks_sound note kv0 hkv0
      refine ⟨part, hpart, hq1, hq2, ?_, ?_⟩
      · rw [heq, hkv0eq]
      · rw [heq, hkv0eq]
  · intro part hpart h1 h2
    by_cases hn : note = ""
    · exfalso
      subst hn
      have hpc : pickClauses "" = [""] := by decide
      rw [hpc] at hpart
      have hp0 := List.mem_singleton.mp hpart
      subst hp0
      exact absurd h1 (by decide)
    · have hk := parsePicks_complete note part hpart hn h1 h2
      rw [hasKey_iff_mem] at hk
      obtain ⟨e, he, heq⟩ := List.mem_map.mp hk
      unfold mapPicksOf
      have hc := rekey_complete (parsePicks note) e he
      rw [heq] at hc
      exact hc

/-- Witness for C8 (amended) on the example note. -/
theorem pickTableSpec_witness :
    hasKey (normalizeMapName "Corrode")
      (mapPicksOf "TL pick Corrode; SEN pick Bind") = true := by
  have h := pickTableSpec "TL pick Corrode; SEN pick Bind"
  exact h.2.1 "TL pick Corrode" (by decide) (by decide) (by decide)

end Vlr
